import Mathlib

/-!
Verification development for the UNO match engine in `src/index.js`.

Modelling conventions, used throughout:

* JS arrays used as stacks (`deck`, `discardPile`) push/pop at their END; we
  represent them as Lean lists in POP order, i.e. the head of the Lean list is
  the next card `pop()` returns (the end of the JS array).
* A JS `undefined` entry inside a hand (produced by popping an empty deck) is
  modelled by `Option Card` hand entries: `none` is `undefined`, `some c` a
  real card.
* A JS `TypeError` (property access on `undefined`/`null`) is modelled by an
  explicit error slot: handlers return `MatchState × List OutMsg × Option String`,
  where the state component is the state at the moment the exception fires
  (JS mutates in place, so mutations made before a throw survive it) and the
  message list contains exactly the broadcasts emitted before the throw.
* `Math.random()`-driven choices (Fisher-Yates shuffling) are modelled by an
  oracle `rand : Nat → Nat`; step `i` of the shuffle swaps index `i` with
  `rand i % (i+1)`, which reaches exactly the JS-reachable outcomes.
* JS object fields `players` (string-keyed, insertion ordered, unique keys)
  become a `List Player` in insertion order; `delete`/update act on the first
  (hence only) entry with the given id.
* Fields of the JS state that no claim mentions and no modelled code path
  reads (`drawCount`, `lastAction`, `ready`, the wall-clock timer fields
  `turnStartTime`/`turnTimeLimit`) are omitted; `score` on a player is kept.
* Outbound broadcasts are modelled as tagged values carrying the payload
  fields the claims talk about; `play_card_error` is the only message sent to
  a restricted recipient list (`broadcastMessageDeferred(.., [playerId])`),
  so it alone carries its recipients.  Leaderboard writes (`nk.leaderboardRecordWrite`)
  are an external best-effort sink wrapped in try/catch in the source and are
  not modelled.
-/

deriving instance DecidableEq for Except

namespace Uno

/-- Card colors as used by `createDeck` (wild cards carry color "wild"). -/
inductive Color where
  | red | yellow | green | blue | wild
deriving DecidableEq, Repr

/-- Card kinds, the `type` field of a JS card object. -/
inductive CType where
  | number | skip | reverse | draw_two | wild | wild_draw_four
deriving DecidableEq, Repr

/-- A card object `{color, type, value}`; `value` is `null` (`none`) except on
number cards. -/
structure Card where
  color : Color
  type : CType
  value : Option Nat
deriving DecidableEq, Repr

/-- A possibly-`undefined` hand entry (popping an empty JS array yields
`undefined`, which the code happily pushes into a hand). -/
abbrev JsCard := Option Card

/-- A registered player (`state.players[id]`). -/
structure Player where
  userId : String
  username : String
  hand : List JsCard
  calledUno : Bool
  score : Int
deriving DecidableEq, Repr

/-- One entry of `finalScores`. -/
structure ScoreRec where
  userId : String
  username : String
  score : Int
  result : String
  reason : String
deriving DecidableEq, Repr

/-- The match state aggregate built in `matchInit` (timer fields and the unused
`drawCount`/`lastAction` omitted, see the header comment). -/
structure MatchState where
  players : List Player
  gameStarted : Bool
  currentTurn : Option String
  deck : List Card
  discardPile : List Card
  topCard : Option Card
  direction : Int
  gamePhase : String
  finalScores : Option (List ScoreRec)
deriving DecidableEq, Repr

/-- Outbound notifications; only the payload fields the claims mention are
kept.  `playCardError` records its restricted recipient list. -/
inductive OutMsg where
  | playerJoined (pid : String)
  | playerLeft (pid : String)
  | gameStarted
  | gameState
  | playerHand (pid : String) (playable : List Nat)
  | cardPlayed (pid : String) (card : Card) (remaining : Nat)
  | cardDrawn (pid : String) (cardsInHand : Nat)
  | playerCalledUno (pid : String)
  | autoPlay (pid : String) (card : Card) (remaining : Nat)
  | autoDraw (pid : String) (cardsInHand : Nat)
  | gameEnded (reason : String) (winner : Option String)
  | playCardError (error : String) (recipients : List String)
deriving DecidableEq, Repr

/-- Result type of every message handler: final state, broadcasts emitted, and
`some e` if a JS exception escaped the handler (caught by `matchLoop`). -/
abbrev HandlerResult := MatchState × List OutMsg × Option String

/-! ## Card & Deck Manager -/

/-- Number cards of one color: one 0, two each of 1-9 (`createDeck`, first two
inner loops). -/
def numberCards (color : Color) : List Card :=
  { color := color, type := CType.number, value := some 0 } ::
  (List.range' 1 9).flatMap (fun num =>
    [{ color := color, type := CType.number, value := some num },
     { color := color, type := CType.number, value := some num }])

/-- Action cards of one color: two each of skip/reverse/draw_two. -/
def actionCards (color : Color) : List Card :=
  [CType.skip, CType.reverse, CType.draw_two].flatMap (fun t =>
    [{ color := color, type := t, value := none },
     { color := color, type := t, value := none }])

/-- The canonical 108-card deck in the push order `createDeck` produces. -/
def createDeck : List Card :=
  ([Color.red, Color.yellow, Color.green, Color.blue].flatMap
    (fun color => numberCards color ++ actionCards color)) ++
  (List.range 4).flatMap (fun _ =>
    [{ color := Color.wild, type := CType.wild, value := none },
     { color := Color.wild, type := CType.wild_draw_four, value := none }])

/-- One Fisher-Yates swap `deck[i] ↔ deck[j]` (both indices in range in the
source loop). -/
def jsSwap (l : List Card) (i j : Nat) : List Card :=
  match l[i]?, l[j]? with
  | some x, some y => (l.set i y).set j x
  | _, _ => l

/-- The Fisher-Yates countdown loop of `shuffleDeck`: steps at `i, i-1, ..., 1`. -/
def shuffleGo (rand : Nat → Nat) : Nat → List Card → List Card
  | 0, l => l
  | i+1, l => shuffleGo rand i (jsSwap l (i+1) (rand (i+1) % (i+2)))

/-- `shuffleDeck(deck)`: Fisher-Yates with the random oracle `rand`. -/
def shuffleDeck (rand : Nat → Nat) (deck : List Card) : List Card :=
  shuffleGo rand (deck.length - 1) deck

/-! ## Play Validator -/

/-- `isValidPlay(card, topCard)` on two real cards.  Note the `value` fields
are compared with `===`, and both are `null` on any non-number card. -/
def isValidPlay (card topCard : Card) : Bool :=
  if card.type = CType.wild ∨ card.type = CType.wild_draw_four then true
  else
    decide (card.color = topCard.color) ||
    decide (card.value = topCard.value) ||
    (decide (card.type = topCard.type) && decide (card.type ≠ CType.number))

/-- `isValidPlay` as the JS runtime sees it: reading `.type` of an `undefined`
card, or `.color` of a `null` top card, throws a `TypeError`. -/
def jsIsValidPlay (card : JsCard) (top : Option Card) : Except String Bool :=
  match card with
  | none => .error "TypeError"
  | some c =>
    if c.type = CType.wild ∨ c.type = CType.wild_draw_four then .ok true
    else
      match top with
      | none => .error "TypeError"
      | some t => .ok (isValidPlay c t)

/-! ## Turn Controller -/

/-- `advanceTurn(state)`: step `currentTurn` by `direction` through the player
ids (JS `indexOf` yields `-1` for an unknown/absent current turn). -/
def advanceTurn (s : MatchState) : MatchState :=
  let playerIds := s.players.map (fun p => p.userId)
  let currentIndex : Int :=
    match s.currentTurn with
    | none => -1
    | some t =>
      match playerIds.findIdx? (fun x => x = t) with
      | some k => (k : Int)
      | none => -1
  let n : Int := (playerIds.length : Int)
  let nextIndex : Int :=
    if s.direction = 1 then (currentIndex + 1) % n
    else (currentIndex - 1 + n) % n
  { s with currentTurn := playerIds[nextIndex.toNat]? }

/-- Update the hand of the (unique) player with the given id; other players
untouched. -/
def updateHand : List Player → String → (List JsCard → List JsCard) → List Player
  | [], _, _ => []
  | p :: rest, pid, f =>
    if p.userId = pid then { p with hand := f p.hand } :: rest
    else p :: updateHand rest pid f

/-- Set the `calledUno` flag of the player with the given id. -/
def updateUno : List Player → String → List Player
  | [], _ => []
  | p :: rest, pid =>
    if p.userId = pid then { p with calledUno := true } :: rest
    else p :: updateUno rest pid

/-- The forced-draw loop of `applyCardEffects`: `n` iterations of
`if (deck.length > 0) players[pid].hand.push(deck.pop())`.  A missing target
player makes the member access throw before the pop. -/
def forceDraw (pid : Option String) : Nat → MatchState → MatchState × Option String
  | 0, s => (s, none)
  | n+1, s =>
    match s.deck with
    | [] => forceDraw pid n s
    | c :: rest =>
      match pid.bind (fun t => s.players.find? (fun p => p.userId = t)) with
      | none => (s, some "TypeError")
      | some _ =>
        forceDraw pid n
          { s with deck := rest,
                   players := updateHand s.players (pid.getD "")
                     (fun h => h ++ [some c]) }

/-- `applyCardEffects(state, card)`: the kind-specific compound behaviour run
before the mandatory post-play `advanceTurn`. -/
def applyCardEffects (s : MatchState) (card : Card) : MatchState × Option String :=
  match card.type with
  | CType.skip => (advanceTurn s, none)
  | CType.reverse => ({ s with direction := s.direction * (-1) }, none)
  | CType.draw_two =>
    let s1 := advanceTurn s
    forceDraw s1.currentTurn 2 s1
  | CType.wild_draw_four =>
    let s1 := advanceTurn s
    forceDraw s1.currentTurn 4 s1
  | _ => (s, none)

/-! ## Broadcast helpers -/

/-- Playable-index loop of `getPlayableCards`. -/
def getPlayableAux : List JsCard → Card → Nat → Except String (List Nat)
  | [], _, _ => .ok []
  | c :: rest, t, i =>
    match jsIsValidPlay c (some t) with
    | .error e => .error e
    | .ok true => (getPlayableAux rest t (i+1)).map (fun l => i :: l)
    | .ok false => getPlayableAux rest t (i+1)

/-- `getPlayableCards(state, playerId)`: indices of the hand entries that
`isValidPlay` accepts against the top card; `[]` when `topCard` is still
`null`; throws on an `undefined` hand entry. -/
def getPlayableCards (s : MatchState) (pid : String) : Except String (List Nat) :=
  match s.players.find? (fun p => p.userId = pid) with
  | none => .error "TypeError"
  | some p =>
    match s.topCard with
    | none => .ok []
    | some t => getPlayableAux p.hand t 0

/-- The per-player `player_hand` broadcasts of `broadcastGameState`; the loop
aborts at the first player whose playable-card scan throws. -/
def playerHandMsgs (s : MatchState) : List Player → List OutMsg × Option String
  | [] => ([], none)
  | p :: rest =>
    match getPlayableCards s p.userId with
    | .error e => ([], some e)
    | .ok idxs =>
      let (ms, e) := playerHandMsgs s rest
      (OutMsg.playerHand p.userId idxs :: ms, e)

/-- `broadcastGameState(state)`: one `game_state` broadcast (JSON-stringify
maps `undefined` entries to `null`, so it never throws), then one
`player_hand` broadcast per player. -/
def broadcastGameState (s : MatchState) : List OutMsg × Option String :=
  let (ms, e) := playerHandMsgs s s.players
  (OutMsg.gameState :: ms, e)

/-- Hand length of a player as read for an event payload (the acting player is
always present at these read sites). -/
def handLen (s : MatchState) (pid : String) : Nat :=
  match s.players.find? (fun p => p.userId = pid) with
  | some p => p.hand.length
  | none => 0

/-! ## Deck recycling and scoring -/

/-- `reshuffleDeck(state)`: retain the most recent discard as the sole pile
entry, the rest becomes the (re-shuffled) deck.  Note the previous `deck` is
OVERWRITTEN, not merged; both call sites only run this when the deck is empty.
(An empty discard pile would make the JS produce a `[undefined]` pile; that
corner is unreachable while a game is active and is modelled as a no-op.) -/
def reshuffleDeck (rand : Nat → Nat) (s : MatchState) : MatchState :=
  match s.discardPile with
  | [] => s
  | top :: rest => { s with deck := shuffleDeck rand rest, discardPile := [top] }

/-- Point value of one card in `endGame`'s scoring loop. -/
def cardValue (c : Card) : Int :=
  match c.type with
  | CType.number => ((c.value.getD 0 : Nat) : Int)
  | CType.skip | CType.reverse | CType.draw_two => 20
  | CType.wild | CType.wild_draw_four => 50

/-- The inner valuation loop of `endGame`; reading `.type` of an `undefined`
hand entry throws. -/
def jsHandValue : List JsCard → Except String Int
  | [] => .ok 0
  | none :: _ => .error "TypeError"
  | some c :: rest => (jsHandValue rest).map (fun v => cardValue c + v)

/-- Hand values of all players in registry order (`endGame`'s outer loop). -/
def computeValues : List Player → Except String (List (String × Int))
  | [] => .ok []
  | p :: rest =>
    match jsHandValue p.hand with
    | .error e => .error e
    | .ok v => (computeValues rest).map (fun l => (p.userId, v) :: l)

/-- Dictionary lookup in the `scores` object. -/
def lookupScore (scores : List (String × Int)) (pid : String) : Int :=
  ((scores.find? (fun x => x.1 = pid)).map (fun x => x.2)).getD 0

/-- `endGame(state, winnerId)`: sets `gamePhase = "ended"`, computes scores
(winner 100 plus the other players' hand values, losers the negated own hand
value), stores `finalScores` and broadcasts `game_ended`.  Leaderboard writes
are external and not modelled. -/
def endGame (s : MatchState) (winnerId : String) : HandlerResult :=
  let s1 := { s with gamePhase := "ended" }
  match computeValues s.players with
  | .error e => (s1, [], some e)
  | .ok vals =>
    let totalOther := (vals.filter (fun v => v.1 ≠ winnerId)).foldl (fun a v => a + v.2) 0
    let base := vals.map (fun v => if v.1 = winnerId then (v.1, (100 : Int)) else (v.1, -v.2))
    let scores := base.map (fun x => if x.1 = winnerId then (x.1, x.2 + totalOther) else x)
    let finalScores := s.players.map (fun p =>
      { userId := p.userId, username := p.username,
        score := lookupScore scores p.userId,
        result := if p.userId = winnerId then "winner" else "loser",
        reason := "game_completed" : ScoreRec })
    let s2 := { s1 with finalScores := some finalScores }
    match s.players.find? (fun p => p.userId = winnerId) with
    | none => (s2, [], some "TypeError")
    | some _ => (s2, [OutMsg.gameEnded "game_completed" (some winnerId)], none)

/-! ## Per-action message handlers -/

/-- The card-ownership scan of `handlePlayCard`: first index whose entry
matches the requested card on color, type and value; returns the stored card
(what `splice` hands back).  Reading a field of an `undefined` entry throws. -/
def jsFindCardIndex : List JsCard → Card → Except String (Option (Nat × Card))
  | [], _ => .ok none
  | none :: _, _ => .error "TypeError"
  | some c :: rest, card =>
    if c.color = card.color ∧ c.type = card.type ∧ c.value = card.value then
      .ok (some (0, c))
    else
      (jsFindCardIndex rest card).map (fun r =>
        match r with
        | none => none
        | some (i, x) => some (i+1, x))

/-- `handlePlayCard(state, dispatcher, playerId, data)` for a well-formed
`data.card`. -/
def handlePlayCard (s : MatchState) (pid : String) (card : Card) : HandlerResult :=
  if s.currentTurn ≠ some pid then (s, [], none)
  else
    match s.players.find? (fun p => p.userId = pid) with
    | none => (s, [], some "TypeError")
    | some pl =>
      match jsFindCardIndex pl.hand card with
      | .error e => (s, [], some e)
      | .ok none => (s, [OutMsg.playCardError "card_not_owned" [pid]], none)
      | .ok (some (i, playedCard)) =>
        match jsIsValidPlay (some card) s.topCard with
        | .error e => (s, [], some e)
        | .ok false => (s, [OutMsg.playCardError "invalid_play" [pid]], none)
        | .ok true =>
          let hand' := pl.hand.eraseIdx i
          let s1 := { s with players := updateHand s.players pid (fun _ => hand'),
                             topCard := some playedCard,
                             discardPile := playedCard :: s.discardPile }
          if hand'.length = 0 then endGame s1 pid
          else
            match applyCardEffects s1 playedCard with
            | (s2, some e) => (s2, [], some e)
            | (s2, none) =>
              let s3 := advanceTurn s2
              let (msgs, e3) := broadcastGameState s3
              match e3 with
              | some e => (s3, msgs, some e)
              | none => (s3, msgs ++ [OutMsg.cardPlayed pid playedCard (handLen s3 pid)], none)

/-- `handleDrawCard(state, dispatcher, playerId)`. -/
def handleDrawCard (rand : Nat → Nat) (s : MatchState) (pid : String) : HandlerResult :=
  if s.currentTurn ≠ some pid then (s, [], none)
  else
    let s0 := if s.deck.length = 0 then reshuffleDeck rand s else s
    let drawn := s0.deck.head?
    match s0.players.find? (fun p => p.userId = pid) with
    | none => ({ s0 with deck := s0.deck.tail }, [], some "TypeError")
    | some _ =>
      let s1 := { s0 with deck := s0.deck.tail,
                          players := updateHand s0.players pid (fun h => h ++ [drawn]) }
      let s2 := advanceTurn s1
      let (msgs, e) := broadcastGameState s2
      match e with
      | some err => (s2, msgs, some err)
      | none => (s2, msgs ++ [OutMsg.cardDrawn pid (handLen s2 pid)], none)

/-- `handleCallUno(state, dispatcher, playerId)`: NO turn validation in the
source; sets the flag and broadcasts. -/
def handleCallUno (s : MatchState) (pid : String) : HandlerResult :=
  match s.players.find? (fun p => p.userId = pid) with
  | none => (s, [], some "TypeError")
  | some _ =>
    ({ s with players := updateUno s.players pid }, [OutMsg.playerCalledUno pid], none)

/-- `handlePassTurn(state, dispatcher, playerId)`. -/
def handlePassTurn (s : MatchState) (pid : String) : HandlerResult :=
  if s.currentTurn ≠ some pid then (s, [], none)
  else
    let s1 := advanceTurn s
    let (msgs, e) := broadcastGameState s1
    (s1, msgs, e)

/-- The playable-card scan of `handleAutoPlay` (collects `{card, index}`
pairs; only the first is used). -/
def autoPlayablesAux : List JsCard → Option Card → Nat → Except String (List (Nat × Card))
  | [], _, _ => .ok []
  | none :: _, _, _ => .error "TypeError"
  | some x :: rest, top, i =>
    match jsIsValidPlay (some x) top with
    | .error e => .error e
    | .ok true => (autoPlayablesAux rest top (i+1)).map (fun l => (i, x) :: l)
    | .ok false => autoPlayablesAux rest top (i+1)

/-- `handleAutoPlay(state, dispatcher)`: timer-expiry forced move for the
current player — play the first playable card, else draw. -/
def handleAutoPlay (rand : Nat → Nat) (s : MatchState) : HandlerResult :=
  match s.currentTurn with
  | none => (s, [], some "TypeError")
  | some pid =>
    match s.players.find? (fun p => p.userId = pid) with
    | none => (s, [], some "TypeError")
    | some pl =>
      match autoPlayablesAux pl.hand s.topCard 0 with
      | .error e => (s, [], some e)
      | .ok ((i, c) :: _) =>
        let hand' := pl.hand.eraseIdx i
        let s1 := { s with players := updateHand s.players pid (fun _ => hand'),
                           topCard := some c,
                           discardPile := c :: s.discardPile }
        if hand'.length = 0 then endGame s1 pid
        else
          match applyCardEffects s1 c with
          | (s2, some e) => (s2, [], some e)
          | (s2, none) =>
            let s3 := advanceTurn s2
            let (msgs, e3) := broadcastGameState s3
            match e3 with
            | some e => (s3, msgs, some e)
            | none => (s3, msgs ++ [OutMsg.autoPlay pid c (handLen s3 pid)], none)
      | .ok [] =>
        let s0 := if s.deck.length = 0 then reshuffleDeck rand s else s
        let drawn := s0.deck.head?
        let s1 := { s0 with deck := s0.deck.tail,
                            players := updateHand s0.players pid (fun h => h ++ [drawn]) }
        let s2 := advanceTurn s1
        let (msgs, e) := broadcastGameState s2
        match e with
        | some err => (s2, msgs, some err)
        | none => (s2, msgs ++ [OutMsg.autoDraw pid (handLen s2 pid)], none)

/-! ## Lifecycle -/

/-- The dealing loop of `startGame`: each player in registry order is handed
the next 7 pops (their previous hand is overwritten). -/
def dealHands : List Player → List Card → List Player × List Card
  | [], deck => ([], deck)
  | p :: rest, deck =>
    let (ps, deck') := dealHands rest (deck.drop 7)
    ({ p with hand := (deck.take 7).map some } :: ps, deck')

/-- The initial-flip do/while of `startGame`: pop until a non-wild card turns
up.  Returns the flipped card, the remaining deck, and the wild cards popped
on the way (the source drops these on the floor).  `none` models the deck
running out (`undefined.type` throws). -/
def initialFlip : List Card → Option (Card × List Card × List Card)
  | [] => none
  | c :: rest =>
    if c.type = CType.wild ∨ c.type = CType.wild_draw_four then
      (initialFlip rest).map (fun r => (r.1, r.2.1, c :: r.2.2))
    else some (c, rest, [])

/-- `startGame(state, dispatcher)`: fresh shuffled deck, deal 7 to every
registered player, initial flip, first-joined player to act.  The
`game_state`/`game_started` broadcasts mutate nothing and are omitted. -/
def startGame (rand : Nat → Nat) (s : MatchState) : Option MatchState :=
  let deck0 := shuffleDeck rand createDeck.reverse
  let (players', deck1) := dealHands s.players deck0
  match initialFlip deck1 with
  | none => none
  | some (top, deck2, _discardedWilds) =>
    some { s with deck := deck2, discardPile := [top], topCard := some top,
                  players := players',
                  currentTurn := (players'.map (fun p => p.userId)).head?,
                  direction := 1, gameStarted := true, gamePhase := "playing" }

/-- `matchLeave(...)`: remove each leaving presence, then end the game by
forfeit if fewer than two players remain in a started game. -/
def matchLeave (s : MatchState) (leaving : List String) : MatchState × List OutMsg :=
  let players' := leaving.foldl (fun ps pid => ps.filter (fun p => p.userId ≠ pid)) s.players
  let s1 := { s with players := players' }
  let leftMsgs := leaving.map OutMsg.playerLeft
  if players'.length < 2 ∧ s.gameStarted then
    match players' with
    | [w] =>
      let rec0 : ScoreRec :=
        { userId := w.userId, username := w.username, score := 100,
          result := "winner", reason := "opponent_left" }
      ({ s1 with gamePhase := "finished", finalScores := some [rec0] },
        leftMsgs ++ [OutMsg.gameEnded "player_left" (some w.userId)])
    | _ =>
      ({ s1 with gamePhase := "finished", finalScores := some [] },
        leftMsgs ++ [OutMsg.gameEnded "player_left" none])
  else (s1, leftMsgs)

/-! ## The card-conservation quantity -/

/-- The real cards in a hand (`undefined` entries carry no card). -/
def handCards (p : Player) : List Card := p.hand.filterMap id

/-- All cards held in hands, in registry order. -/
def allHandCards (ps : List Player) : List Card := (ps.map handCards).flatten

/-- The multiset union of deck, discard pile and all hands. -/
def cardsOf (s : MatchState) : Multiset Card :=
  (s.deck : Multiset Card) + (s.discardPile : Multiset Card) +
    (allHandCards s.players : Multiset Card)

/-! ## Concrete fixtures used by witnesses and counterexamples -/

set_option maxRecDepth 20000

/-- Concrete player fixture. -/
def alice : Player :=
  { userId := "a", username := "A", hand := [], calledUno := false, score := 0 }

/-- Concrete player fixture. -/
def bob : Player :=
  { userId := "b", username := "B", hand := [], calledUno := false, score := 0 }

/-- A freshly initialised two-player lobby (the `matchInit` state after two
joins). -/
def lobbyState : MatchState :=
  { players := [alice, bob], gameStarted := false, currentTurn := none,
    deck := [], discardPile := [], topCard := none, direction := 1,
    gamePhase := "waiting", finalScores := none }

/-- Fallback state used only to discharge `Option.getD` in closed statements. -/
def defaultState : MatchState :=
  { players := [], gameStarted := false, currentTurn := none, deck := [],
    discardPile := [], topCard := none, direction := 1,
    gamePhase := "waiting", finalScores := none }

/-- A concrete random oracle: the Fisher-Yates run that swaps positions 14 and
7 of the pop-ordered fresh deck and leaves everything else in place, so the
card flipped after dealing 14 cards is a wild card. -/
def wildFlipRand : Nat → Nat := fun i => if i = 14 then 7 else i

/-- Some concrete cards. -/
def red3 : Card := { color := Color.red, type := CType.number, value := some 3 }

/-- Some concrete cards. -/
def red5 : Card := { color := Color.red, type := CType.number, value := some 5 }

/-- Some concrete cards. -/
def green3 : Card := { color := Color.green, type := CType.number, value := some 3 }

/-- Some concrete cards. -/
def blue1 : Card := { color := Color.blue, type := CType.number, value := some 1 }

/-- Some concrete cards. -/
def blue9 : Card := { color := Color.blue, type := CType.number, value := some 9 }

/-- Some concrete cards. -/
def redSkip : Card := { color := Color.red, type := CType.skip, value := none }

/-- Some concrete cards. -/
def blueReverse : Card := { color := Color.blue, type := CType.reverse, value := none }

/-- Some concrete cards. -/
def blueDrawTwo : Card := { color := Color.blue, type := CType.draw_two, value := none }

/-- A small mid-game state: Alice to act holding red 5, Bob holding green 3,
red 3 on top, one card left in the deck. -/
def tinyState : MatchState :=
  { players := [{ alice with hand := [some red5] },
                { bob with hand := [some green3] }],
    gameStarted := true, currentTurn := some "a", deck := [blue1],
    discardPile := [red3], topCard := some red3, direction := 1,
    gamePhase := "playing", finalScores := none }

/-- The claim's legality predicate, following the spec's words: wild cards are
always legal; otherwise legal iff the color matches, or the NUMERIC value
matches (both cards actually carry the same integer value), or the kinds match
and the kind is not `number`. -/
def specLegalPlay (c t : Card) : Prop :=
  c.type = CType.wild ∨ c.type = CType.wild_draw_four ∨
    c.color = t.color ∨ (c.value ≠ none ∧ c.value = t.value) ∨
    (c.type = t.type ∧ c.type ≠ CType.number)

instance specLegalPlayDec (c t : Card) : Decidable (specLegalPlay c t) := by
  unfold specLegalPlay
  infer_instance

/-- Hand valuation following the spec's words: number cards count their value,
skip/reverse/draw_two count 20, wilds count 50. -/
def handValue (h : List JsCard) : Int := ((h.filterMap id).map cardValue).sum

/-- Sum of the hand values of every player other than the winner. -/
def othersTotal (ps : List Player) (wid : String) : Int :=
  ((ps.filter (fun p => p.userId ≠ wid)).map (fun p => handValue p.hand)).sum

/-- A state in mid-reshuffle position: empty deck, two discards with the top
card first. -/
def pileState : MatchState :=
  { tinyState with deck := [], discardPile := [red3, blue1] }

/-- A mid-game state where Alice (to act) holds only blue 9 against top card
red 3, so blue 9 is an illegal play and anything else is unowned. -/
def mismatchState : MatchState :=
  { tinyState with players := [{ alice with hand := [some blue9] },
                               { bob with hand := [some green3] }] }

/-- Alice holding only the red 5. -/
def alice1 : Player := { alice with hand := [some red5] }

/-- The `tinyState` with its deck exhausted: discard pile holds only the
retained top card. -/
def drainedState : MatchState := { tinyState with deck := [] }

/-- A red draw-two card. -/
def redDrawTwo : Card := { color := Color.red, type := CType.draw_two, value := none }

/-- Alice holding cards 1..53 of the canonical deck (among them both red
draw-two cards). -/
def bigAlice : Player := { alice with hand := ((createDeck.drop 1).take 53).map some }

/-- Bob holding cards 54..107 of the canonical deck. -/
def bigBob : Player := { bob with hand := (createDeck.drop 54).map some }

/-- A playing state whose deck has been drawn empty: every one of the 108
cards is in a hand or is the retained top card (red 0), so the multiset
invariant holds and the state is of the shape draws produce. -/
def fullDrainedState : MatchState :=
  { players := [bigAlice, bigBob],
    gameStarted := true, currentTurn := some "a", deck := [],
    discardPile := [{ color := Color.red, type := CType.number, value := some 0 }],
    topCard := some { color := Color.red, type := CType.number, value := some 0 },
    direction := 1, gamePhase := "playing", finalScores := none }

/-- A small playing state with two cards left in the deck and the blue
draw-two playable on the blue 9. -/
def drawTwoState : MatchState :=
  { players := [{ alice with hand := [some blueDrawTwo, some red5] },
                { bob with hand := [some green3] }],
    gameStarted := true, currentTurn := some "a", deck := [blue1, red3],
    discardPile := [blue9], topCard := some blue9, direction := 1,
    gamePhase := "playing", finalScores := none }

/-! ## Permutation facts about the shuffle -/

lemma coe_set_add (l : List Card) (i : Nat) (a x : Card) (h : l[i]? = some x) :
    (↑(l.set i a) : Multiset Card) + {x} = (↑l : Multiset Card) + {a} := by
  obtain ⟨hlen, hx⟩ := List.getElem?_eq_some_iff.mp h
  rw [List.set_eq_take_append_cons_drop, if_pos hlen]
  conv_rhs => rw [← List.take_append_drop i l, ← List.getElem_cons_drop l i hlen]
  rw [hx]
  simp only [← Multiset.coe_add, ← Multiset.cons_coe, ← Multiset.singleton_add]
  abel

lemma jsSwap_coe (l : List Card) (i j : Nat) :
    (↑(jsSwap l i j) : Multiset Card) = ↑l := by
  rcases hi : l[i]? with _ | x
  · simp [jsSwap, hi]
  · rcases hj : l[j]? with _ | y
    · simp [jsSwap, hi, hj]
    · simp only [jsSwap, hi, hj]
      have hlen : i < l.length := (List.getElem?_eq_some_iff.mp hi).1
      have hj' : (l.set i y)[j]? = some y := by
        rw [List.getElem?_set]
        by_cases hij : i = j
        · rw [if_pos hij, if_pos hlen]
        · rw [if_neg hij]; exact hj
      have A := coe_set_add l i y x hi
      have B := coe_set_add (l.set i y) j x y hj'
      exact add_right_cancel (B.trans A)

lemma shuffleGo_coe (rand : Nat → Nat) :
    ∀ (n : Nat) (l : List Card), (↑(shuffleGo rand n l) : Multiset Card) = ↑l
  | 0, _ => rfl
  | n+1, l => by rw [shuffleGo, shuffleGo_coe rand n, jsSwap_coe]

lemma shuffleDeck_coe (rand : Nat → Nat) (l : List Card) :
    (↑(shuffleDeck rand l) : Multiset Card) = ↑l :=
  shuffleGo_coe rand _ l

/-! ## Multiset decomposition of the flip and the deal -/

lemma initialFlip_coe :
    ∀ (l : List Card) {t : Card} {r w : List Card},
      initialFlip l = some (t, r, w) →
      (↑l : Multiset Card) = (↑w : Multiset Card) + (t ::ₘ (↑r : Multiset Card))
  | [], _, _, _, h => by cases h
  | c :: rest, t, r, w, h => by
    by_cases hw : c.type = CType.wild ∨ c.type = CType.wild_draw_four
    · rw [initialFlip, if_pos hw] at h
      rcases hmap : initialFlip rest with _ | ⟨t', r', w'⟩ <;> rw [hmap] at h
      · cases h
      · simp only [Option.map_some'] at h
        have ih := initialFlip_coe rest hmap
        cases h
        rw [← Multiset.cons_coe, ← Multiset.cons_coe, ih]
        simp only [← Multiset.singleton_add]
        abel
    · rw [initialFlip, if_neg hw] at h
      cases h
      simp

lemma initialFlip_wilds :
    ∀ (l : List Card) {t : Card} {r w : List Card},
      initialFlip l = some (t, r, w) →
      ∀ c ∈ w, c.type = CType.wild ∨ c.type = CType.wild_draw_four
  | [], _, _, _, h => by cases h
  | c :: rest, t, r, w, h => by
    by_cases hw : c.type = CType.wild ∨ c.type = CType.wild_draw_four
    · rw [initialFlip, if_pos hw] at h
      rcases hmap : initialFlip rest with _ | ⟨t', r', w'⟩ <;> rw [hmap] at h
      · cases h
      · simp only [Option.map_some'] at h
        cases h
        intro x hx
        rcases List.mem_cons.mp hx with hx | hx
        · exact hx ▸ hw
        · exact initialFlip_wilds rest hmap x hx
    · rw [initialFlip, if_neg hw] at h
      cases h
      intro x hx
      cases hx

lemma dealHands_coe :
    ∀ (ps : List Player) (deck : List Card),
      (↑(allHandCards (dealHands ps deck).1) : Multiset Card) +
          ↑(dealHands ps deck).2 = (↑deck : Multiset Card)
  | [], deck => by simp [dealHands, allHandCards]
  | p :: rest, deck => by
    have ih := dealHands_coe rest (deck.drop 7)
    rcases hdr : dealHands rest (deck.drop 7) with ⟨ps', d'⟩
    rw [hdr] at ih
    simp only [dealHands, hdr, allHandCards, List.map_cons, List.flatten_cons,
      handCards, List.filterMap_map]
    have hfm : List.filterMap (id ∘ some) (deck.take 7) = deck.take 7 := by
      simp
    rw [hfm]
    simp only [allHandCards] at ih
    rw [← Multiset.coe_add]
    conv_rhs => rw [← List.take_append_drop 7 deck, ← Multiset.coe_add]
    rw [← ih]
    abel

/-! ## Hand-update bookkeeping -/

lemma filterMap_eraseIdx_coe :
    ∀ (l : List JsCard) (i : Nat) (c : Card),
      l[i]? = some (some c) →
      (↑(List.filterMap id (l.eraseIdx i)) : Multiset Card) + {c} =
        ↑(List.filterMap id l)
  | [], i, c, h => by simp at h
  | x :: rest, 0, c, h => by
    simp only [List.getElem?_cons_zero, Option.some.injEq] at h
    subst h
    simp only [List.eraseIdx_cons_zero, List.filterMap_cons, id]
    rw [← Multiset.cons_coe, ← Multiset.singleton_add]
    abel
  | x :: rest, i+1, c, h => by
    simp only [List.getElem?_cons_succ] at h
    have ih := filterMap_eraseIdx_coe rest i c h
    simp only [List.eraseIdx_cons_succ, List.filterMap_cons]
    cases x with
    | none => simpa using ih
    | some y =>
      simp only [id]
      rw [← Multiset.cons_coe, ← Multiset.cons_coe, ← Multiset.singleton_add,
        ← Multiset.singleton_add, ← ih]
      abel

lemma allHandCards_updateHand :
    ∀ (ps : List Player) (pid : String) (q : Player) (g : List JsCard → List JsCard),
      ps.find? (fun p => p.userId = pid) = some q →
      (↑(allHandCards (updateHand ps pid g)) : Multiset Card) +
          ↑(q.hand.filterMap id) =
        (↑(allHandCards ps) : Multiset Card) + ↑((g q.hand).filterMap id)
  | [], _, _, _, h => by simp at h
  | p :: rest, pid, q, g, h => by
    by_cases hp : p.userId = pid
    · rw [List.find?_cons_of_pos _ (by simp [hp])] at h
      cases h
      simp only [updateHand, if_pos hp, allHandCards, List.map_cons,
        List.flatten_cons, handCards]
      rw [← Multiset.coe_add, ← Multiset.coe_add]
      abel
    · rw [List.find?_cons_of_neg _ (by simp [hp])] at h
      have ih := allHandCards_updateHand rest pid q g h
      simp only [updateHand, if_neg hp, allHandCards, List.map_cons,
        List.flatten_cons, handCards] at ih ⊢
      rw [← Multiset.coe_add, ← Multiset.coe_add, add_assoc, add_assoc, ih]

lemma find?_updateHand :
    ∀ (ps : List Player) (pid : String) (q : Player) (g : List JsCard → List JsCard),
      ps.find? (fun p => p.userId = pid) = some q →
      (updateHand ps pid g).find? (fun p => p.userId = pid) =
        some { q with hand := g q.hand }
  | [], _, _, _, h => by simp at h
  | p :: rest, pid, q, g, h => by
    by_cases hp : p.userId = pid
    · rw [List.find?_cons_of_pos _ (by simp [hp])] at h
      cases h
      simp only [updateHand, if_pos hp]
      exact List.find?_cons_of_pos _ (by simp [hp])
    · rw [List.find?_cons_of_neg _ (by simp [hp])] at h
      simp only [updateHand, if_neg hp]
      rw [List.find?_cons_of_neg _ (by simp [hp])]
      exact find?_updateHand rest pid q g h

lemma find?_updateHand_ne :
    ∀ (ps : List Player) (pid pid' : String) (g : List JsCard → List JsCard),
      pid ≠ pid' →
      (updateHand ps pid g).find? (fun p => p.userId = pid') =
        ps.find? (fun p => p.userId = pid')
  | [], _, _, _, _ => rfl
  | p :: rest, pid, pid', g, hne => by
    by_cases hp : p.userId = pid
    · have hp' : ¬ p.userId = pid' := fun h => hne (hp ▸ h)
      simp only [updateHand, if_pos hp]
      rw [List.find?_cons_of_neg _ (by simp [hp']),
        List.find?_cons_of_neg _ (by simp [hp'])]
    · simp only [updateHand, if_neg hp]
      by_cases hp' : p.userId = pid'
      · rw [List.find?_cons_of_pos _ (by simp [hp']),
          List.find?_cons_of_pos _ (by simp [hp'])]
      · rw [List.find?_cons_of_neg _ (by simp [hp']),
          List.find?_cons_of_neg _ (by simp [hp'])]
        exact find?_updateHand_ne rest pid pid' g hne

lemma updateHand_map_userId :
    ∀ (ps : List Player) (pid : String) (g : List JsCard → List JsCard),
      (updateHand ps pid g).map (fun p => p.userId) = ps.map (fun p => p.userId)
  | [], _, _ => rfl
  | p :: rest, pid, g => by
    by_cases hp : p.userId = pid <;>
      simp [updateHand, hp, updateHand_map_userId rest pid g]

lemma allHandCards_push (ps : List Player) (pid : String) (q : Player) (x : JsCard)
    (h : ps.find? (fun p => p.userId = pid) = some q) :
    (↑(allHandCards (updateHand ps pid (fun h0 => h0 ++ [x]))) : Multiset Card) =
      ↑(allHandCards ps) + ↑([x].filterMap id) := by
  have h2 := allHandCards_updateHand ps pid q (fun h0 => h0 ++ [x]) h
  rw [List.filterMap_append, ← Multiset.coe_add] at h2
  have h3 : (↑(allHandCards (updateHand ps pid (fun h0 => h0 ++ [x]))) : Multiset Card)
        + ↑(q.hand.filterMap id)
      = ((↑(allHandCards ps) : Multiset Card) + ↑([x].filterMap id))
        + ↑(q.hand.filterMap id) := by
    rw [h2]; abel
  exact add_right_cancel h3

lemma allHandCards_replaceErase (ps : List Player) (pid : String) (q : Player)
    (i : Nat) (x : Card)
    (h : ps.find? (fun p => p.userId = pid) = some q)
    (hx : q.hand[i]? = some (some x)) :
    (↑(allHandCards (updateHand ps pid (fun _ => q.hand.eraseIdx i))) : Multiset Card)
        + {x} = ↑(allHandCards ps) := by
  have h2 := allHandCards_updateHand ps pid q (fun _ => q.hand.eraseIdx i) h
  have h3 := filterMap_eraseIdx_coe q.hand i x hx
  have h4 : (↑(allHandCards (updateHand ps pid (fun _ => q.hand.eraseIdx i))) : Multiset Card)
        + {x} + ↑(q.hand.filterMap id)
      = (↑(allHandCards ps) : Multiset Card) + ↑(q.hand.filterMap id) := by
    calc (↑(allHandCards (updateHand ps pid (fun _ => q.hand.eraseIdx i))) : Multiset Card)
          + {x} + ↑(q.hand.filterMap id)
        = ((↑(allHandCards (updateHand ps pid (fun _ => q.hand.eraseIdx i))) : Multiset Card)
            + ↑(q.hand.filterMap id)) + {x} := by abel
      _ = ((↑(allHandCards ps) : Multiset Card) + ↑((q.hand.eraseIdx i).filterMap id)) + {x} := by
            rw [h2]
      _ = (↑(allHandCards ps) : Multiset Card)
            + (↑((q.hand.eraseIdx i).filterMap id) + {x}) := by abel
      _ = (↑(allHandCards ps) : Multiset Card) + ↑(q.hand.filterMap id) := by rw [h3]
  exact add_right_cancel h4

/-! ## Field and conservation facts about the turn controller -/

lemma advanceTurn_players (s : MatchState) : (advanceTurn s).players = s.players := rfl

lemma advanceTurn_deck (s : MatchState) : (advanceTurn s).deck = s.deck := rfl

lemma cardsOf_advanceTurn (s : MatchState) : cardsOf (advanceTurn s) = cardsOf s := rfl

lemma forceDraw_cardsOf :
    ∀ (pid : Option String) (n : Nat) (s : MatchState),
      cardsOf (forceDraw pid n s).1 = cardsOf s
  | _, 0, _ => rfl
  | pid, n+1, s => by
    rcases hdeck : s.deck with _ | ⟨c, rest⟩
    · simp only [forceDraw, hdeck]
      exact forceDraw_cardsOf pid n s
    · simp only [forceDraw, hdeck]
      rcases pid with _ | t

      · simp only [Option.none_bind]
      · rcases hfind : s.players.find? (fun p => p.userId = t) with _ | q
        · simp only [Option.some_bind, hfind]
        · simp only [Option.some_bind, hfind]
          rw [forceDraw_cardsOf (some t) n _]
          unfold cardsOf
          simp only [Option.getD_some]
          rw [allHandCards_push s.players t q (some c) hfind, hdeck]
          simp only [List.filterMap_cons, id, List.filterMap_nil, Multiset.coe_nil,
            Multiset.coe_singleton]
          rw [← Multiset.cons_coe, ← Multiset.singleton_add]
          abel

lemma cardsOf_reshuffleDeck (rand : Nat → Nat) (s : MatchState) (h : s.deck = []) :
    cardsOf (reshuffleDeck rand s) = cardsOf s := by
  rcases hdisc : s.discardPile with _ | ⟨top, rest⟩
  · simp [reshuffleDeck, hdisc]
  · simp only [reshuffleDeck, hdisc]
    unfold cardsOf
    simp only [h, hdisc]
    rw [shuffleDeck_coe]
    simp only [← Multiset.cons_coe, ← Multiset.singleton_add, Multiset.coe_nil]
    abel

lemma cardsOf_applyCardEffects (s : MatchState) (card : Card) :
    cardsOf (applyCardEffects s card).1 = cardsOf s := by
  unfold applyCardEffects
  cases hc : card.type
  case skip => exact cardsOf_advanceTurn s
  case reverse => rfl
  case draw_two =>
    rw [forceDraw_cardsOf]
    exact cardsOf_advanceTurn s
  case wild_draw_four =>
    rw [forceDraw_cardsOf]
    exact cardsOf_advanceTurn s
  case number => rfl
  case wild => rfl

lemma cardsOf_endGame (s : MatchState) (wid : String) :
    cardsOf (endGame s wid).1 = cardsOf s := by
  unfold endGame
  rcases hv : computeValues s.players with e | vals
  · rfl
  · rcases hf : s.players.find? (fun p => p.userId = wid) with _ | w
    · simp only [hf]
      rfl
    · simp only [hf]
      rfl

lemma jsFindCardIndex_getElem :
    ∀ (hand : List JsCard) (card : Card) {i : Nat} {x : Card},
      jsFindCardIndex hand card = .ok (some (i, x)) → hand[i]? = some (some x)
  | [], _, _, _, h => by simp [jsFindCardIndex] at h
  | none :: rest, _, _, _, h => by simp [jsFindCardIndex] at h
  | some c :: rest, card, i, x, h => by
    by_cases hm : c.color = card.color ∧ c.type = card.type ∧ c.value = card.value
    · rw [jsFindCardIndex, if_pos hm] at h
      cases h
      simp
    · rw [jsFindCardIndex, if_neg hm] at h
      rcases hr : jsFindCardIndex rest card with e | o <;> rw [hr] at h
      · cases h
      · rcases o with _ | ⟨i', x'⟩
        · simp [Except.map] at h
        · simp only [Except.map, Except.ok.injEq, Option.some.injEq,
            Prod.mk.injEq] at h
          obtain ⟨hi, hx⟩ := h
          subst hi; subst hx
          simpa using jsFindCardIndex_getElem rest card hr

lemma cardsOf_handlePlayCard (s : MatchState) (pid : String) (card : Card) :
    cardsOf (handlePlayCard s pid card).1 = cardsOf s := by
  unfold handlePlayCard
  by_cases hturn : s.currentTurn ≠ some pid
  · rw [if_pos hturn]
  · rw [if_neg hturn]
    rcases hfind : s.players.find? (fun p => p.userId = pid) with _ | pl
    · simp only [hfind]
    · simp only [hfind]
      rcases hidx : jsFindCardIndex pl.hand card with e | o
      · try simp only [hidx]
      · try simp only [hidx]
        rcases o with _ | ⟨i, pc⟩
        · rfl
        · rcases hvalid : jsIsValidPlay (some card) s.topCard with e | b
          · try simp only [hvalid]
          · try simp only [hvalid]
            cases b
            · rfl
            · have hget := jsFindCardIndex_getElem pl.hand card hidx
              have herase := allHandCards_replaceErase s.players pid pl i pc hfind hget
              have hc1 : cardsOf { s with
                    players := updateHand s.players pid (fun _ => pl.hand.eraseIdx i),
                    topCard := some pc,
                    discardPile := pc :: s.discardPile } = cardsOf s := by
                unfold cardsOf
                rw [← herase]
                rw [← Multiset.cons_coe, ← Multiset.singleton_add]
                abel
              by_cases hwin : (pl.hand.eraseIdx i).length = 0
              · simp only [if_pos hwin]
                rw [cardsOf_endGame]
                exact hc1
              · simp only [if_neg hwin]
                rcases heff : applyCardEffects { s with
                    players := updateHand s.players pid (fun _ => pl.hand.eraseIdx i),
                    topCard := some pc,
                    discardPile := pc :: s.discardPile } pc with ⟨s2, e2⟩
                have hc2 : cardsOf s2 = cardsOf s := by
                  have h3 := cardsOf_applyCardEffects { s with
                      players := updateHand s.players pid (fun _ => pl.hand.eraseIdx i),
                      topCard := some pc,
                      discardPile := pc :: s.discardPile } pc
                  rw [heff] at h3
                  exact h3.trans hc1
                rcases e2 with _ | e
                · rcases hb : broadcastGameState (advanceTurn s2) with ⟨msgs, e3⟩
                  rcases e3 with _ | e <;>
                    simp only [hb] <;>
                    rw [cardsOf_advanceTurn] at * <;>
                    exact hc2
                · exact hc2

lemma cardsOf_handleDrawCard (rand : Nat → Nat) (s : MatchState) (pid : String)
    (hfind : (s.players.find? (fun p => p.userId = pid)).isSome) :
    cardsOf (handleDrawCard rand s pid).1 = cardsOf s := by
  unfold handleDrawCard
  by_cases hturn : s.currentTurn ≠ some pid
  · rw [if_pos hturn]
  · rw [if_neg hturn]
    have hs0 : cardsOf (if s.deck.length = 0 then reshuffleDeck rand s else s) = cardsOf s := by
      by_cases hd : s.deck.length = 0
      · rw [if_pos hd]
        exact cardsOf_reshuffleDeck rand s (List.length_eq_zero.mp hd)
      · rw [if_neg hd]
    have hps0 : (if s.deck.length = 0 then reshuffleDeck rand s else s).players = s.players := by
      by_cases hd : s.deck.length = 0
      · rw [if_pos hd]
        unfold reshuffleDeck
        rcases s.discardPile with _ | ⟨t, r⟩ <;> rfl
      · rw [if_neg hd]
    set s0 := if s.deck.length = 0 then reshuffleDeck rand s else s with hs0def
    rcases hf : s0.players.find? (fun p => p.userId = pid) with _ | pl
    · rw [hps0] at hf
      rw [hf] at hfind
      cases hfind
    · have hkey : cardsOf { s0 with
          deck := s0.deck.tail,
          players := updateHand s0.players pid (fun h => h ++ [s0.deck.head?]) } = cardsOf s0 := by
        unfold cardsOf
        rw [allHandCards_push s0.players pid pl s0.deck.head? hf]
        rcases hdk : s0.deck with _ | ⟨c, r⟩
        · simp
        · simp only [List.head?_cons, List.tail_cons, List.filterMap_cons, id,
            List.filterMap_nil, Multiset.coe_singleton]
          rw [← Multiset.cons_coe, ← Multiset.singleton_add]
          abel
      rcases hb : broadcastGameState (advanceTurn { s0 with
          deck := s0.deck.tail,
          players := updateHand s0.players pid (fun h => h ++ [s0.deck.head?]) }) with ⟨msgs, e⟩
      rcases e with _ | err <;>
        simp only [hf] <;>
        rw [hb] <;>
        exact hkey.trans hs0

lemma cardsOf_startGame (rand : Nat → Nat) (s s' : MatchState)
    (h : startGame rand s = some s') :
    ∃ w : List Card,
      (∀ c ∈ w, c.type = CType.wild ∨ c.type = CType.wild_draw_four) ∧
      cardsOf s' + ↑w = (↑createDeck : Multiset Card) := by
  simp only [startGame] at h
  rcases hdeal : dealHands s.players (shuffleDeck rand createDeck.reverse) with ⟨ps', deck1⟩
  rw [hdeal] at h
  rcases hflip : initialFlip deck1 with _ | ⟨top, deck2, w⟩ <;> rw [hflip] at h
  · cases h
  · injection h with h'
    subst h'
    refine ⟨w, initialFlip_wilds deck1 hflip, ?_⟩
    have hd := dealHands_coe s.players (shuffleDeck rand createDeck.reverse)
    rw [hdeal] at hd
    have hs := shuffleDeck_coe rand createDeck.reverse
    have hf := initialFlip_coe deck1 hflip
    unfold cardsOf
    calc (↑deck2 : Multiset Card) + ↑[top] + ↑(allHandCards ps') + ↑w
        = ↑(allHandCards ps') + (↑w + (top ::ₘ (↑deck2 : Multiset Card))) := by
          simp only [← Multiset.cons_coe, ← Multiset.singleton_add, Multiset.coe_nil]
          abel
      _ = ↑(allHandCards ps') + ↑deck1 := by rw [← hf]
      _ = ↑(shuffleDeck rand createDeck.reverse) := hd
      _ = ↑createDeck.reverse := hs
      _ = ↑createDeck := Multiset.coe_reverse createDeck

/-! ## C1 -/

/-- C1 counterexample: with the (reachable) shuffle outcome `wildFlipRand`,
the card flipped by `startGame` after dealing is wild; the engine discards it
without recording it anywhere, so right after the deal and initial flip the
multiset union of deck, discard pile and hands is NOT the canonical 108-card
composition `createDeck`. -/
theorem C1_counterexample :
    (startGame wildFlipRand lobbyState).isSome = true ∧
      cardsOf ((startGame wildFlipRand lobbyState).getD defaultState) ≠
        (↑createDeck : Multiset Card) := by
  constructor
  · decide
  · decide

/-- C1 (amended): the multiset union of deck, discard pile and all hands is
preserved by `handlePlayCard`, by `handleDrawCard` (for an acting player that
is registered), by `reshuffleDeck` when the deck is empty (the only states in
which the source invokes it) and by `applyCardEffects`; `startGame` however
only establishes that the union PLUS the wild cards discarded by the initial
flip equals the canonical 108-card composition — the discarded wilds vanish
from the match. -/
theorem C1_amended :
    (∀ (rand : Nat → Nat) (s s' : MatchState), startGame rand s = some s' →
        ∃ w : List Card,
          (∀ c ∈ w, c.type = CType.wild ∨ c.type = CType.wild_draw_four) ∧
            cardsOf s' + ↑w = (↑createDeck : Multiset Card)) ∧
    (∀ (s : MatchState) (pid : String) (card : Card),
        cardsOf (handlePlayCard s pid card).1 = cardsOf s) ∧
    (∀ (rand : Nat → Nat) (s : MatchState) (pid : String),
        (s.players.find? (fun p => p.userId = pid)).isSome →
        cardsOf (handleDrawCard rand s pid).1 = cardsOf s) ∧
    (∀ (rand : Nat → Nat) (s : MatchState), s.deck = [] →
        cardsOf (reshuffleDeck rand s) = cardsOf s) ∧
    (∀ (s : MatchState) (card : Card),
        cardsOf (applyCardEffects s card).1 = cardsOf s) :=
  ⟨cardsOf_startGame, cardsOf_handlePlayCard, cardsOf_handleDrawCard,
    cardsOf_reshuffleDeck, cardsOf_applyCardEffects⟩

/-- C1 witness: the amended preservation statements applied at concrete
inputs, with every hypothesis discharged there. -/
theorem C1_amended_witness :
    ((tinyState.players.find? (fun p => p.userId = "a")).isSome = true ∧
      cardsOf (handleDrawCard id tinyState "a").1 = cardsOf tinyState) ∧
    (({ tinyState with deck := ([] : List Card) } : MatchState).deck = [] ∧
      cardsOf (reshuffleDeck id { tinyState with deck := [] }) =
        cardsOf { tinyState with deck := [] }) :=
  ⟨⟨by decide, C1_amended.2.2.1 id tinyState "a" (by decide)⟩,
    ⟨rfl, C1_amended.2.2.2.1 id { tinyState with deck := [] } rfl⟩⟩

/-! ## C2 -/

/-- C2 counterexample: `isValidPlay` accepts a red skip played on a blue
reverse — both cards carry the `null` value, and `null === null` counts as a
value match — although the claim's predicate rejects it: the colors differ,
neither card has a numeric value, and the kinds differ. -/
theorem C2_counterexample :
    isValidPlay redSkip blueReverse = true ∧ ¬ specLegalPlay redSkip blueReverse := by
  decide

/-- C2 (amended): `isValidPlay c t` is true iff `c` is wild, or the colors
match, or the VALUE FIELDS match — every non-number card carries the null
value, so any two non-wild action cards, of any colors and kinds, and any
action card on a wild top card, match by value — or the kinds match and the
kind is not `number`. -/
theorem C2_amended (c t : Card) :
    isValidPlay c t = true ↔
      (c.type = CType.wild ∨ c.type = CType.wild_draw_four ∨
        c.color = t.color ∨ c.value = t.value ∨
        (c.type = t.type ∧ c.type ≠ CType.number)) := by
  unfold isValidPlay
  by_cases hw : c.type = CType.wild ∨ c.type = CType.wild_draw_four
  · rw [if_pos hw]
    rcases hw with hw | hw <;> simp [hw]
  · rw [if_neg hw]
    have h1 : ¬ c.type = CType.wild := fun h => hw (Or.inl h)
    have h2 : ¬ c.type = CType.wild_draw_four := fun h => hw (Or.inr h)
    simp only [Bool.or_eq_true, Bool.and_eq_true, decide_eq_true_eq, h1, h2,
      false_or]
    tauto

/-! ## C8 -/

/-- C8 counterexample: `reshuffleDeck` on a state whose deck is NOT empty
overwrites the deck with the discard pile's remainder, so cards are lost: with
deck `[blue1]` and discard pile `[red3]`, the union of deck and discard holds
two cards before and only one after. -/
theorem C8_counterexample :
    tinyState.discardPile ≠ [] ∧
      ((↑(reshuffleDeck id tinyState).deck +
          ↑(reshuffleDeck id tinyState).discardPile : Multiset Card) ≠
        (↑tinyState.deck + ↑tinyState.discardPile : Multiset Card)) := by
  decide

/-- C8 (amended): for every state with an EMPTY deck — the only states from
which the source invokes `reshuffleDeck` — and a non-empty discard pile,
reshuffling preserves the multiset union of deck and discard pile, and leaves
the prior `topCard` as the sole discard. -/
theorem C8_amended (rand : Nat → Nat) (s : MatchState) (t : Card)
    (hdeck : s.deck = []) (htop : s.topCard = some t)
    (hhead : s.discardPile.head? = some t) :
    ((↑(reshuffleDeck rand s).deck +
        ↑(reshuffleDeck rand s).discardPile : Multiset Card) =
      (↑s.deck + ↑s.discardPile : Multiset Card)) ∧
    (reshuffleDeck rand s).discardPile = [t] := by
  rcases hd : s.discardPile with _ | ⟨d, rest⟩
  · rw [hd] at hhead
    cases hhead
  · rw [hd] at hhead
    simp only [List.head?_cons, Option.some.injEq] at hhead
    subst hhead
    constructor
    · simp only [reshuffleDeck, hd]
      rw [shuffleDeck_coe, hdeck]
      simp only [Multiset.coe_nil, Multiset.coe_singleton]
      rw [← Multiset.cons_coe, ← Multiset.singleton_add]
      abel
    · simp only [reshuffleDeck, hd]

/-- C8 witness: the amended statement applied to a concrete state with empty
deck and discard pile `[red3, blue1]`. -/
theorem C8_amended_witness :
    (pileState.deck = [] ∧ pileState.topCard = some red3 ∧
      pileState.discardPile.head? = some red3) ∧
    ((↑(reshuffleDeck id pileState).deck +
        ↑(reshuffleDeck id pileState).discardPile : Multiset Card) =
      (↑pileState.deck + ↑pileState.discardPile : Multiset Card)) ∧
    (reshuffleDeck id pileState).discardPile = [red3] :=
  ⟨⟨rfl, rfl, rfl⟩, C8_amended id pileState red3 rfl rfl rfl⟩

/-! ## C6 -/

lemma find?_updateUno :
    ∀ (ps : List Player) (pid : String) (q : Player),
      ps.find? (fun p => p.userId = pid) = some q →
      (updateUno ps pid).find? (fun p => p.userId = pid) =
        some { q with calledUno := true }
  | [], _, _, h => by simp at h
  | p :: rest, pid, q, h => by
    by_cases hp : p.userId = pid
    · rw [List.find?_cons_of_pos _ (by simp [hp])] at h
      cases h
      simp only [updateUno, if_pos hp]
      exact List.find?_cons_of_pos _ (by simp [hp])
    · rw [List.find?_cons_of_neg _ (by simp [hp])] at h
      simp only [updateUno, if_neg hp]
      rw [List.find?_cons_of_neg _ (by simp [hp])]
      exact find?_updateUno rest pid q h

/-- C6 counterexample: `handleCallUno` performs NO turn validation: with the
turn belonging to player `a`, a `call_uno` from player `b` still mutates the
match state (it sets `b`'s `calledUno` flag). -/
theorem C6_counterexample :
    tinyState.currentTurn = some "a" ∧ "a" ≠ "b" ∧
      (handleCallUno tinyState "b").1 ≠ tinyState := by
  decide

/-- C6 (amended): `handlePlayCard`, `handleDrawCard` and `handlePassTurn` each
validate `currentTurn == actingPlayer` before mutating anything, and on
failure return the state unchanged with no broadcast; `handleCallUno` however
performs no turn validation: even out of turn it sets the caller's
`calledUno` flag, changing the state. -/
theorem C6_amended :
    (∀ (s : MatchState) (pid : String) (card : Card),
        s.currentTurn ≠ some pid → handlePlayCard s pid card = (s, [], none)) ∧
    (∀ (rand : Nat → Nat) (s : MatchState) (pid : String),
        s.currentTurn ≠ some pid → handleDrawCard rand s pid = (s, [], none)) ∧
    (∀ (s : MatchState) (pid : String),
        s.currentTurn ≠ some pid → handlePassTurn s pid = (s, [], none)) ∧
    (∀ (s : MatchState) (pid : String) (q : Player),
        s.currentTurn ≠ some pid →
        s.players.find? (fun p => p.userId = pid) = some q →
        q.calledUno = false →
        ((handleCallUno s pid).1.players.find? (fun p => p.userId = pid) =
            some { q with calledUno := true }) ∧
          (handleCallUno s pid).1 ≠ s) := by
  refine ⟨?_, ?_, ?_, ?_⟩
  · intro s pid card h
    unfold handlePlayCard
    rw [if_pos h]
  · intro rand s pid h
    unfold handleDrawCard
    rw [if_pos h]
  · intro s pid h
    unfold handlePassTurn
    rw [if_pos h]
  · intro s pid q _hturn hq hflag
    have hres : (handleCallUno s pid).1 =
        { s with players := updateUno s.players pid } := by
      unfold handleCallUno
      rw [hq]
    have hfindres : (handleCallUno s pid).1.players.find?
        (fun p => p.userId = pid) = some { q with calledUno := true } := by
      rw [hres]
      exact find?_updateUno s.players pid q hq
    refine ⟨hfindres, fun heq => ?_⟩
    rw [heq, hq] at hfindres
    have : q = { q with calledUno := true } := by
      injection hfindres
    have hflag' : q.calledUno = true := by
      conv_lhs => rw [this]
    rw [hflag] at hflag'
    cases hflag'

/-- C6 witness: the amended statement applied to `tinyState`, where it is
player `a`'s turn and `b` acts. -/
theorem C6_amended_witness :
    (tinyState.currentTurn ≠ some "b") ∧
    handlePlayCard tinyState "b" green3 = (tinyState, [], none) ∧
    handleDrawCard id tinyState "b" = (tinyState, [], none) ∧
    handlePassTurn tinyState "b" = (tinyState, [], none) ∧
    (handleCallUno tinyState "b").1 ≠ tinyState :=
  ⟨by decide,
    C6_amended.1 tinyState "b" green3 (by decide),
    C6_amended.2.1 id tinyState "b" (by decide),
    C6_amended.2.2.1 tinyState "b" (by decide),
    (C6_amended.2.2.2 tinyState "b" { bob with hand := [some green3] }
      (by decide) (by decide) (by decide)).2⟩

/-! ## C7 -/

/-- C7: when `handlePlayCard` rejects a play because the card is not in the
actor's hand, or because `isValidPlay` rejects it against the top card, the
match state is returned unchanged and the single `play_card_error`
notification is addressed to the offending player alone. -/
theorem C7_play_errors (s : MatchState) (pid : String) (card : Card) (pl : Player)
    (hturn : s.currentTurn = some pid)
    (hfind : s.players.find? (fun p => p.userId = pid) = some pl) :
    (jsFindCardIndex pl.hand card = .ok none →
      handlePlayCard s pid card =
        (s, [OutMsg.playCardError "card_not_owned" [pid]], none)) ∧
    (∀ (i : Nat) (c : Card), jsFindCardIndex pl.hand card = .ok (some (i, c)) →
      jsIsValidPlay (some card) s.topCard = .ok false →
      handlePlayCard s pid card =
        (s, [OutMsg.playCardError "invalid_play" [pid]], none)) := by
  constructor
  · intro hidx
    unfold handlePlayCard
    rw [if_neg (fun h => h hturn)]
    simp only [hfind, hidx]
  · intro i c hidx hvalid
    unfold handlePlayCard
    rw [if_neg (fun h => h hturn)]
    simp only [hfind, hidx, hvalid]

/-- C7 witness: both error paths evaluated on `mismatchState`. -/
theorem C7_play_errors_witness :
    (mismatchState.currentTurn = some "a" ∧
      mismatchState.players.find? (fun p => p.userId = "a") =
        some { alice with hand := [some blue9] }) ∧
    handlePlayCard mismatchState "a" green3 =
      (mismatchState, [OutMsg.playCardError "card_not_owned" ["a"]], none) ∧
    handlePlayCard mismatchState "a" blue9 =
      (mismatchState, [OutMsg.playCardError "invalid_play" ["a"]], none) :=
  ⟨⟨rfl, by decide⟩,
    (C7_play_errors mismatchState "a" green3 { alice with hand := [some blue9] }
        rfl (by decide)).1 (by decide),
    (C7_play_errors mismatchState "a" blue9 { alice with hand := [some blue9] }
        rfl (by decide)).2 0 blue9 (by decide) (by decide)⟩

/-! ## C10 -/

/-- C10: if every player of a started two-player match leaves in the same
batch, the match still moves to phase `finished` and broadcasts `game_ended`,
but with an empty `finalScores` and a `null` winner — no synthetic winner
record is produced. -/
theorem C10_all_leave (s : MatchState) (a b : Player)
    (hps : s.players = [a, b]) (hstarted : s.gameStarted = true) :
    (matchLeave s [a.userId, b.userId]).1.gamePhase = "finished" ∧
    (matchLeave s [a.userId, b.userId]).1.finalScores = some [] ∧
    (matchLeave s [a.userId, b.userId]).2 =
      [OutMsg.playerLeft a.userId, OutMsg.playerLeft b.userId,
        OutMsg.gameEnded "player_left" none] := by
  have hempty : ([a, b].filter (fun p => p.userId ≠ a.userId)).filter
      (fun p => p.userId ≠ b.userId) = [] := by
    by_cases hab : b.userId = a.userId <;> simp [List.filter, hab]
  refine ⟨?_, ?_, ?_⟩ <;>
    simp [matchLeave, hps, hstarted, List.foldl, hempty]

/-- C10 witness: both players of a started lobby leave together. -/
theorem C10_all_leave_witness :
    (({ lobbyState with gameStarted := true } : MatchState).players = [alice, bob] ∧
      ({ lobbyState with gameStarted := true } : MatchState).gameStarted = true) ∧
    (matchLeave { lobbyState with gameStarted := true }
        [alice.userId, bob.userId]).1.gamePhase = "finished" ∧
    (matchLeave { lobbyState with gameStarted := true }
        [alice.userId, bob.userId]).1.finalScores = some [] ∧
    (matchLeave { lobbyState with gameStarted := true }
        [alice.userId, bob.userId]).2 =
      [OutMsg.playerLeft alice.userId, OutMsg.playerLeft bob.userId,
        OutMsg.gameEnded "player_left" none] :=
  ⟨⟨rfl, rfl⟩,
    C10_all_leave { lobbyState with gameStarted := true } alice bob rfl rfl⟩

/-! ## C3 -/

/-- C3 (code bug): in `tinyState` player `a` holds only red 5 against top card
red 3; playing it is a winning play.  The engine computes the scores and
broadcasts `game_ended` naming the winner, but it sets `gamePhase` to the
undocumented value "ended" — not the terminal value "finished" that
`matchInit`'s own comment and `matchLeave` use — and it leaves `currentTurn`
pointing at the winner while no handler checks the phase, so a subsequent
`draw_card` from the winner is still processed and mutates the state. -/
theorem C3_code_bug :
    (handlePlayCard tinyState "a" red5).1.gamePhase = "ended" ∧
    (handlePlayCard tinyState "a" red5).1.gamePhase ≠ "finished" ∧
    (handlePlayCard tinyState "a" red5).2.1 =
      [OutMsg.gameEnded "game_completed" (some "a")] ∧
    (handlePlayCard tinyState "a" red5).1.finalScores =
      some [{ userId := "a", username := "A", score := 103,
              result := "winner", reason := "game_completed" },
            { userId := "b", username := "B", score := -3,
              result := "loser", reason := "game_completed" }] ∧
    (handleDrawCard id (handlePlayCard tinyState "a" red5).1 "a").1 ≠
      (handlePlayCard tinyState "a" red5).1 := by
  decide

/-! ## C9 -/

lemma jsIsValidPlay_some_some (x t : Card) :
    jsIsValidPlay (some x) (some t) =
      .ok (if x.type = CType.wild ∨ x.type = CType.wild_draw_four then true
           else isValidPlay x t) := by
  unfold jsIsValidPlay
  by_cases hw : x.type = CType.wild ∨ x.type = CType.wild_draw_four <;>
    simp [hw]

lemma getPlayableAux_error_val :
    ∀ (hand : List JsCard) (t : Card) (i : Nat) (e : String),
      getPlayableAux hand t i = .error e → e = "TypeError"
  | [], _, _, _, h => by simp [getPlayableAux] at h
  | none :: rest, t, i, e, h => by
    simp only [getPlayableAux, jsIsValidPlay] at h
    injection h with h'
    exact h'.symm
  | some x :: rest, t, i, e, h => by
    simp only [getPlayableAux, jsIsValidPlay_some_some] at h
    rcases hval : (if x.type = CType.wild ∨ x.type = CType.wild_draw_four then true
        else isValidPlay x t) with _ | _ <;> rw [hval] at h
    · exact getPlayableAux_error_val rest t (i+1) e h
    · rcases hr : getPlayableAux rest t (i+1) with e' | l <;> rw [hr] at h
      · injection h with h'
        exact (h' ▸ getPlayableAux_error_val rest t (i+1) e' hr)
      · cases h

lemma getPlayableAux_mem_none :
    ∀ (hand : List JsCard) (t : Card) (i : Nat), none ∈ hand →
      getPlayableAux hand t i = .error "TypeError"
  | [], _, _, h => by cases h
  | none :: rest, t, i, _ => by simp [getPlayableAux, jsIsValidPlay]
  | some x :: rest, t, i, h => by
    have hmem : (none : JsCard) ∈ rest := by
      rcases List.mem_cons.mp h with h' | h'
      · cases h'
      · exact h'
    have ih := getPlayableAux_mem_none rest t (i+1) hmem
    simp only [getPlayableAux, jsIsValidPlay_some_some]
    rcases hval : (if x.type = CType.wild ∨ x.type = CType.wild_draw_four then true
        else isValidPlay x t) with _ | _ <;> simp [ih, Except.map]

lemma getPlayableCards_error_val (s : MatchState) (pid : String) (e : String)
    (h : getPlayableCards s pid = .error e) : e = "TypeError" := by
  unfold getPlayableCards at h
  rcases hfind : s.players.find? (fun p => p.userId = pid) with _ | p <;>
    rw [hfind] at h
  · injection h with h'
    exact h'.symm
  · rcases htop : s.topCard with _ | t <;> rw [htop] at h
    · cases h
    · exact getPlayableAux_error_val p.hand t 0 e h

lemma playerHandMsgs_error (s : MatchState) :
    ∀ (ps : List Player) (p : Player), p ∈ ps →
      getPlayableCards s p.userId = .error "TypeError" →
      (playerHandMsgs s ps).2 = some "TypeError"
  | [], p, hmem, _ => by cases hmem
  | p0 :: rest, p, hmem, herr => by
    rcases hg : getPlayableCards s p0.userId with e | idxs
    · simp only [playerHandMsgs, hg]
      rw [getPlayableCards_error_val s p0.userId e hg]
    · rcases List.mem_cons.mp hmem with h' | h'
      · rw [h'] at herr
        rw [herr] at hg
        cases hg
      · rcases hrest : playerHandMsgs s rest with ⟨ms, er⟩
        simp only [playerHandMsgs, hg, hrest]
        have := playerHandMsgs_error s rest p h' herr
        rw [hrest] at this
        exact this

lemma playerHandMsgs_shape (s : MatchState) :
    ∀ (ps : List Player) (m : OutMsg), m ∈ (playerHandMsgs s ps).1 →
      ∃ pid idxs, m = OutMsg.playerHand pid idxs
  | [], m, h => by simp [playerHandMsgs] at h
  | p :: rest, m, h => by
    rcases hg : getPlayableCards s p.userId with e | idxs
    · simp only [playerHandMsgs, hg] at h
      cases h
    · rcases hrest : playerHandMsgs s rest with ⟨ms, er⟩
      simp only [playerHandMsgs, hg, hrest] at h
      rcases List.mem_cons.mp h with h' | h'
      · exact ⟨p.userId, idxs, h'⟩
      · have := playerHandMsgs_shape s rest m
        rw [hrest] at this
        exact this h'

lemma advanceTurn_currentTurn_congr (s1 s2 : MatchState)
    (hids : s1.players.map (fun p => p.userId) = s2.players.map (fun p => p.userId))
    (hturn : s1.currentTurn = s2.currentTurn) (hdir : s1.direction = s2.direction) :
    (advanceTurn s1).currentTurn = (advanceTurn s2).currentTurn := by
  unfold advanceTurn
  rw [hids, hturn, hdir]

/-- C9 (amended): a `draw_card` processed with an empty deck and only the
retained top card in the discard pile appends an `undefined` entry to the
actor's hand and still advances the turn, but the subsequent game-state
broadcast THROWS a `TypeError` while scanning the hand with the `undefined`
entry for playable cards, so no `card_drawn` event is broadcast (only the
`game_state` message and the `player_hand` messages of the players processed
before the throw go out). -/
theorem C9_amended (rand : Nat → Nat) (s : MatchState) (pid : String) (pl : Player)
    (d t : Card)
    (hdeck : s.deck = []) (hdisc : s.discardPile = [d]) (htop : s.topCard = some t)
    (hturn : s.currentTurn = some pid)
    (hfind : s.players.find? (fun p => p.userId = pid) = some pl) :
    (handleDrawCard rand s pid).2.2 = some "TypeError" ∧
    (∀ m ∈ (handleDrawCard rand s pid).2.1,
      m = OutMsg.gameState ∨ ∃ pid2 idxs, m = OutMsg.playerHand pid2 idxs) ∧
    (handleDrawCard rand s pid).1.players.find? (fun p => p.userId = pid) =
      some { pl with hand := pl.hand ++ [none] } ∧
    (handleDrawCard rand s pid).1.currentTurn = (advanceTurn s).currentTurn := by
  have hpid : pl.userId = pid := by
    have h2 := List.find?_some hfind
    simpa using h2
  have hif : (if s.deck.length = 0 then reshuffleDeck rand s else s)
      = { s with deck := [], discardPile := [d] } := by
    rw [if_pos (by rw [hdeck]; rfl)]
    unfold reshuffleDeck
    rw [hdisc]
    rfl
  have hfind0 : ({ s with deck := ([] : List Card), discardPile := [d] }
      : MatchState).players.find? (fun p => p.userId = pid) = some pl := hfind
  have hfind1 : (updateHand s.players pid (fun h => h ++ [none])).find?
      (fun p => p.userId = pid) = some { pl with hand := pl.hand ++ [none] } :=
    find?_updateHand s.players pid pl _ hfind
  have hmem1 : ({ pl with hand := pl.hand ++ [none] } : Player) ∈
      updateHand s.players pid (fun h => h ++ [none]) :=
    List.mem_of_find?_eq_some hfind1
  have hplayers : (advanceTurn { s with deck := [], discardPile := [d], players := updateHand s.players pid (fun h => h ++ [none]) }).players
      = updateHand s.players pid (fun h => h ++ [none]) := rfl
  have htop2 : (advanceTurn { s with deck := [], discardPile := [d], players := updateHand s.players pid (fun h => h ++ [none]) }).topCard
      = some t := htop
  have hgp : getPlayableCards (advanceTurn { s with deck := [], discardPile := [d], players := updateHand s.players pid (fun h => h ++ [none]) })
      ({ pl with hand := pl.hand ++ [none] } : Player).userId = .error "TypeError" := by
    rw [show ({ pl with hand := pl.hand ++ [none] } : Player).userId = pid from hpid]
    unfold getPlayableCards
    rw [hplayers, hfind1, htop2]
    exact getPlayableAux_mem_none _ t 0 (List.mem_append_right _ (by simp))
  have hmem2 : ({ pl with hand := pl.hand ++ [none] } : Player) ∈
      (advanceTurn { s with deck := [], discardPile := [d], players := updateHand s.players pid (fun h => h ++ [none]) }).players := by
    rw [hplayers]
    exact hmem1
  have herr := playerHandMsgs_error
    (advanceTurn { s with deck := [], discardPile := [d], players := updateHand s.players pid (fun h => h ++ [none]) })
    (advanceTurn { s with deck := [], discardPile := [d], players := updateHand s.players pid (fun h => h ++ [none]) }).players
    { pl with hand := pl.hand ++ [none] } hmem2 hgp
  have hbc : (broadcastGameState (advanceTurn { s with deck := [], discardPile := [d], players := updateHand s.players pid (fun h => h ++ [none]) })).2
      = some "TypeError" := by
    unfold broadcastGameState
    rcases hph : playerHandMsgs (advanceTurn { s with deck := [], discardPile := [d], players := updateHand s.players pid (fun h => h ++ [none]) })
        (advanceTurn { s with deck := [], discardPile := [d], players := updateHand s.players pid (fun h => h ++ [none]) }).players
      with ⟨ms2, e2⟩
    rw [hph] at herr
    simpa using herr
  have hbc1 : (broadcastGameState (advanceTurn { s with deck := [], discardPile := [d], players := updateHand s.players pid (fun h => h ++ [none]) })).1
      = OutMsg.gameState :: (playerHandMsgs (advanceTurn { s with deck := [], discardPile := [d], players := updateHand s.players pid (fun h => h ++ [none]) })
        (advanceTurn { s with deck := [], discardPile := [d], players := updateHand s.players pid (fun h => h ++ [none]) }).players).1 := by
    unfold broadcastGameState
    rcases hph : playerHandMsgs (advanceTurn { s with deck := [], discardPile := [d], players := updateHand s.players pid (fun h => h ++ [none]) })
        (advanceTurn { s with deck := [], discardPile := [d], players := updateHand s.players pid (fun h => h ++ [none]) }).players
      with ⟨ms2, e2⟩
    simp [hph]
  have hres : handleDrawCard rand s pid =
      (advanceTurn { s with deck := [], discardPile := [d], players := updateHand s.players pid (fun h => h ++ [none]) },
        (broadcastGameState (advanceTurn { s with deck := [], discardPile := [d], players := updateHand s.players pid (fun h => h ++ [none]) })).1,
        some "TypeError") := by
    unfold handleDrawCard
    rw [if_neg (fun h => h hturn), hif]
    simp only [hfind0, List.tail_nil, List.head?_nil]
    rcases hb : broadcastGameState (advanceTurn { s with deck := [], discardPile := [d], players := updateHand s.players pid (fun h => h ++ [none]) }) with ⟨ms, e⟩
    rw [hb] at hbc
    simp only at hbc
    subst hbc
    rfl
  refine ⟨?_, ?_, ?_, ?_⟩
  · rw [hres]
  · rw [hres]
    intro m hm
    rw [hbc1] at hm
    rcases List.mem_cons.mp hm with h' | h'
    · exact Or.inl h'
    · exact Or.inr (playerHandMsgs_shape _ _ m h')
  · rw [hres]
    show (advanceTurn { s with deck := [], discardPile := [d], players := updateHand s.players pid (fun h => h ++ [none]) }).players.find?
        (fun p => p.userId = pid) = some { pl with hand := pl.hand ++ [none] }
    rw [hplayers]
    exact hfind1
  · rw [hres]
    show (advanceTurn { s with deck := [], discardPile := [d], players := updateHand s.players pid (fun h => h ++ [none]) }).currentTurn
        = (advanceTurn s).currentTurn
    exact advanceTurn_currentTurn_congr _ s (updateHand_map_userId s.players pid _)
      rfl rfl

/-- C9 counterexample: a `draw_card` on `drainedState` (empty deck, only the
retained top card in the pile) appends an `undefined` entry and advances the
turn, but the handler ends in a thrown `TypeError` and its broadcast list is
just the `game_state` message — no `card_drawn` event is broadcast, contrary
to the claim. -/
theorem C9_counterexample :
    (handleDrawCard id drainedState "a").2.2 = some "TypeError" ∧
    (handleDrawCard id drainedState "a").2.1 = [OutMsg.gameState] ∧
    (handleDrawCard id drainedState "a").1.currentTurn = some "b" ∧
    (handleDrawCard id drainedState "a").1.players.map (fun p => p.hand) =
      [[some red5, none], [some green3]] := by
  decide

/-- C9 witness: the amended statement applied to `drainedState`. -/
theorem C9_amended_witness :
    (drainedState.deck = [] ∧ drainedState.discardPile = [red3] ∧
      drainedState.topCard = some red3 ∧ drainedState.currentTurn = some "a" ∧
      drainedState.players.find? (fun p => p.userId = "a") = some alice1) ∧
    (handleDrawCard id drainedState "a").2.2 = some "TypeError" ∧
    (∀ m ∈ (handleDrawCard id drainedState "a").2.1,
      m = OutMsg.gameState ∨ ∃ pid2 idxs, m = OutMsg.playerHand pid2 idxs) ∧
    (handleDrawCard id drainedState "a").1.players.find?
        (fun p => p.userId = "a") = some { alice1 with hand := alice1.hand ++ [none] } ∧
    (handleDrawCard id drainedState "a").1.currentTurn =
      (advanceTurn drainedState).currentTurn :=
  ⟨⟨rfl, rfl, rfl, rfl, by decide⟩,
    C9_amended id drainedState "a" alice1 red3 red3 rfl rfl rfl rfl (by decide)⟩

/-! ## C5 -/

lemma jsHandValue_clean :
    ∀ (h : List JsCard), (∀ x ∈ h, x ≠ none) → jsHandValue h = .ok (handValue h)
  | [], _ => rfl
  | none :: rest, hcl => absurd rfl (hcl none (List.mem_cons_self _ _))
  | some c :: rest, hcl => by
    have ih := jsHandValue_clean rest (fun x hx => hcl x (List.mem_cons_of_mem _ hx))
    simp only [jsHandValue, ih, Except.map, handValue, List.filterMap_cons, id,
      List.map_cons, List.sum_cons]

lemma computeValues_clean :
    ∀ (ps : List Player), (∀ p ∈ ps, ∀ x ∈ p.hand, x ≠ none) →
      computeValues ps = .ok (ps.map (fun p => (p.userId, handValue p.hand)))
  | [], _ => rfl
  | p :: rest, hcl => by
    have ih := computeValues_clean rest (fun q hq => hcl q (List.mem_cons_of_mem _ hq))
    simp only [computeValues, jsHandValue_clean p.hand (hcl p (List.mem_cons_self _ _)),
      ih, Except.map, List.map_cons]

lemma foldl_add_snd :
    ∀ (l : List (String × Int)) (a : Int),
      l.foldl (fun acc v => acc + v.2) a = a + (l.map (fun v => v.2)).sum
  | [], a => by simp
  | x :: xs, a => by
    simp only [List.foldl_cons, List.map_cons, List.sum_cons,
      foldl_add_snd xs (a + x.2)]
    ring

lemma lookup_map_score (f : Player → Int) :
    ∀ (ps : List Player) (q : Player),
      (ps.map (fun p => p.userId)).Nodup → q ∈ ps →
      lookupScore (ps.map (fun p => (p.userId, f p))) q.userId = f q
  | [], q, _, hq => by cases hq
  | p :: rest, q, hnd, hq => by
    rcases List.mem_cons.mp hq with h' | h'
    · subst h'
      unfold lookupScore
      rw [List.map_cons, List.find?_cons_of_pos _ (by simp)]
      rfl
    · have hne : p.userId ≠ q.userId := by
        intro heq
        have : q.userId ∈ rest.map (fun p => p.userId) :=
          List.mem_map.mpr ⟨q, h', rfl⟩
        rw [← heq] at this
        exact (List.nodup_cons.mp hnd).1 this
      have ih := lookup_map_score f rest q (List.nodup_cons.mp hnd).2 h'
      unfold lookupScore at ih ⊢
      rw [List.map_cons, List.find?_cons_of_neg _ (by simp [hne])]
      exact ih

/-- C5: when the game ends with a registered winner and well-formed hands,
every non-winning player's score is the negation of their hand value (number
cards count their value, skip/reverse/draw_two count 20, wilds count 50) and
the winner's score is 100 plus the sum of the other players' hand values; the
records are stored in `finalScores` and `game_ended` is broadcast. -/
theorem C5_scoring (s : MatchState) (wid : String)
    (hclean : ∀ p ∈ s.players, ∀ x ∈ p.hand, x ≠ none)
    (hnd : (s.players.map (fun p => p.userId)).Nodup)
    (hw : (s.players.find? (fun p => p.userId = wid)).isSome) :
    endGame s wid =
      ({ s with
          gamePhase := "ended",
          finalScores := some (s.players.map (fun p =>
            { userId := p.userId, username := p.username,
              score := if p.userId = wid then 100 + othersTotal s.players wid
                       else -(handValue p.hand),
              result := if p.userId = wid then "winner" else "loser",
              reason := "game_completed" })) },
        [OutMsg.gameEnded "game_completed" (some wid)], none) := by
  rcases hfw : s.players.find? (fun p => p.userId = wid) with _ | w
  · rw [hfw] at hw
    cases hw
  · unfold endGame
    rw [computeValues_clean s.players hclean]
    simp only [hfw]
    have htot : ((s.players.map (fun p => (p.userId, handValue p.hand))).filter
        (fun v => v.1 ≠ wid)).foldl (fun a v => a + v.2) 0 = othersTotal s.players wid := by
      rw [List.filter_map, foldl_add_snd, zero_add, List.map_map]
      unfold othersTotal
      rfl
    rw [htot]
    have hscores : ((s.players.map (fun p => (p.userId, handValue p.hand))).map
          (fun v => if v.1 = wid then (v.1, (100 : Int)) else (v.1, -v.2))).map
          (fun x => if x.1 = wid then (x.1, x.2 + othersTotal s.players wid) else x)
        = s.players.map (fun p => (p.userId,
            if p.userId = wid then 100 + othersTotal s.players wid
            else -(handValue p.hand))) := by
      rw [List.map_map, List.map_map]
      apply List.map_congr_left
      intro p _
      by_cases h : p.userId = wid <;> simp [h, add_comm]
    rw [hscores]
    have hrecs : s.players.map (fun p =>
          ({ userId := p.userId, username := p.username,
             score := lookupScore (s.players.map (fun p => (p.userId,
               if p.userId = wid then 100 + othersTotal s.players wid
               else -(handValue p.hand)))) p.userId,
             result := if p.userId = wid then "winner" else "loser",
             reason := "game_completed" } : ScoreRec))
        = s.players.map (fun p =>
            { userId := p.userId, username := p.username,
              score := if p.userId = wid then 100 + othersTotal s.players wid
                       else -(handValue p.hand),
              result := if p.userId = wid then "winner" else "loser",
              reason := "game_completed" }) := by
      apply List.map_congr_left
      intro p hp
      rw [lookup_map_score (fun p => if p.userId = wid then
        100 + othersTotal s.players wid else -(handValue p.hand)) s.players p hnd hp]
    rw [hrecs]

/-- C5 witness: the scoring statement applied to `mismatchState` with winner
`a`: Bob holds green 3, so Alice scores 103 and Bob scores -3. -/
theorem C5_scoring_witness :
    ((∀ p ∈ mismatchState.players, ∀ x ∈ p.hand, x ≠ none) ∧
      (mismatchState.players.map (fun p => p.userId)).Nodup ∧
      (mismatchState.players.find? (fun p => p.userId = "a")).isSome = true) ∧
    endGame mismatchState "a" =
      ({ mismatchState with
          gamePhase := "ended",
          finalScores := some (mismatchState.players.map (fun p =>
            { userId := p.userId, username := p.username,
              score := if p.userId = "a" then 100 + othersTotal mismatchState.players "a"
                       else -(handValue p.hand),
              result := if p.userId = "a" then "winner" else "loser",
              reason := "game_completed" })) },
        [OutMsg.gameEnded "game_completed" (some "a")], none) :=
  ⟨⟨by decide, by decide, by decide⟩,
    C5_scoring mismatchState "a" (by decide) (by decide) (by decide)⟩

/-! ## C4 -/

lemma advanceTurn_pair_fst (s : MatchState) (u v : String)
    (hids : s.players.map (fun p => p.userId) = [u, v]) (hne : u ≠ v)
    (hc : s.currentTurn = some u) : (advanceTurn s).currentTurn = some v := by
  unfold advanceTurn
  rw [hids, hc]
  have h0 : List.findIdx? (fun x => x = u) [u, v] = some 0 := by
    simp [List.findIdx?_cons]
  simp only [h0]
  by_cases hdir : s.direction = 1 <;> simp [hdir]

lemma advanceTurn_pair_snd (s : MatchState) (u v : String)
    (hids : s.players.map (fun p => p.userId) = [u, v]) (hne : u ≠ v)
    (hc : s.currentTurn = some v) : (advanceTurn s).currentTurn = some u := by
  unfold advanceTurn
  rw [hids, hc]
  have h0 : List.findIdx? (fun x => x = v) [u, v] = some 1 := by
    simp [List.findIdx?_cons, hne]
  simp only [h0]
  by_cases hdir : s.direction = 1 <;> simp [hdir]

lemma forceDraw_frame :
    ∀ (pid : Option String) (n : Nat) (s : MatchState),
      (forceDraw pid n s).1.currentTurn = s.currentTurn ∧
      (forceDraw pid n s).1.players.map (fun p => p.userId) =
        s.players.map (fun p => p.userId) ∧
      (forceDraw pid n s).1.direction = s.direction
  | _, 0, _ => ⟨rfl, rfl, rfl⟩
  | pid, n+1, s => by
    rcases hdeck : s.deck with _ | ⟨c, rest⟩
    · simp only [forceDraw, hdeck]
      exact forceDraw_frame pid n s
    · simp only [forceDraw, hdeck]
      rcases hfq : pid.bind (fun t => s.players.find? (fun p => p.userId = t)) with _ | q
      · simp [hfq]
      · simp only [hfq]
        have ih := forceDraw_frame pid n { s with deck := rest, players := updateHand s.players (pid.getD "") (fun h => h ++ [some c]) }
        refine ⟨ih.1, ?_, ih.2.2⟩
        rw [ih.2.1]
        exact updateHand_map_userId s.players _ _

lemma forceDraw_growth :
    ∀ (n : Nat) (s : MatchState) (pid : String) (q : Player),
      s.players.find? (fun p => p.userId = pid) = some q →
      handLen (forceDraw (some pid) n s).1 pid = q.hand.length + min n s.deck.length
  | 0, s, pid, q, hq => by
    simp only [forceDraw, handLen, hq, Nat.zero_min, Nat.add_zero]
  | n+1, s, pid, q, hq => by
    rcases hdeck : s.deck with _ | ⟨c, rest⟩
    · simp only [forceDraw, hdeck]
      rw [forceDraw_growth n s pid q hq, hdeck]
      simp
    · simp only [forceDraw, hdeck, Option.some_bind, hq, Option.getD_some]
      have hq' : (updateHand s.players pid (fun h => h ++ [some c])).find?
          (fun p => p.userId = pid) = some { q with hand := q.hand ++ [some c] } :=
        find?_updateHand s.players pid q _ hq
      rw [forceDraw_growth n _ pid _ hq']
      simp only [List.length_append, List.length_cons, List.length_nil]
      omega

lemma handLen_advanceTurn (s : MatchState) (pid : String) :
    handLen (advanceTurn s) pid = handLen s pid := rfl

lemma jsFindCardIndex_lt (hand : List JsCard) (card : Card) {i : Nat} {x : Card}
    (h : jsFindCardIndex hand card = .ok (some (i, x))) : i < hand.length :=
  (List.getElem?_eq_some_iff.mp (jsFindCardIndex_getElem hand card h)).1

lemma forceDraw_ok :
    ∀ (n : Nat) (s : MatchState) (pid : String) (q : Player),
      s.players.find? (fun p => p.userId = pid) = some q →
      (forceDraw (some pid) n s).2 = none
  | 0, _, _, _, _ => rfl
  | n+1, s, pid, q, hq => by
    rcases hdeck : s.deck with _ | ⟨c, rest⟩
    · simp only [forceDraw, hdeck]
      exact forceDraw_ok n s pid q hq
    · simp only [forceDraw, hdeck, Option.some_bind, hq, Option.getD_some]
      exact forceDraw_ok n _ pid _ (find?_updateHand s.players pid q _ hq)

/-- C4 (amended): in a two-player match, when the current player legally plays
a `draw_two` card and does not thereby win, the opponent's hand grows by
`min 2 (deck size)` — NOT always by exactly 2, because the forced-draw loop
silently skips its draws once the deck is empty and never reshuffles — and
`currentTurn` returns to the player who played the card. -/
theorem C4_amended (s : MatchState) (x y : Player) (card c : Card) (i : Nat)
    (hps : s.players = [x, y] ∨ s.players = [y, x])
    (hne : x.userId ≠ y.userId)
    (hturn : s.currentTurn = some x.userId)
    (hidx : jsFindCardIndex x.hand card = .ok (some (i, c)))
    (htype : c.type = CType.draw_two)
    (hvalid : jsIsValidPlay (some card) s.topCard = .ok true)
    (hlen : x.hand.length ≠ 1) :
    (handlePlayCard s x.userId card).1.currentTurn = some x.userId ∧
    handLen (handlePlayCard s x.userId card).1 y.userId =
      y.hand.length + min 2 s.deck.length := by
  have hfindx : s.players.find? (fun p => p.userId = x.userId) = some x := by
    rcases hps with h | h <;> rw [h]
    · exact List.find?_cons_of_pos _ (by simp)
    · rw [List.find?_cons_of_neg _ (by
        simp only [decide_eq_true_eq]
        exact fun h2 => hne h2.symm)]
      exact List.find?_cons_of_pos _ (by simp)
  have hfindy : s.players.find? (fun p => p.userId = y.userId) = some y := by
    rcases hps with h | h <;> rw [h]
    · rw [List.find?_cons_of_neg _ (by simp [hne])]
      exact List.find?_cons_of_pos _ (by simp)
    · exact List.find?_cons_of_pos _ (by simp)
  have hwin' : ¬ (x.hand.eraseIdx i).length = 0 := by
    have hi := jsFindCardIndex_lt x.hand card hidx
    rw [List.length_eraseIdx, if_pos hi]
    omega
  have hadv1 : (advanceTurn { s with players := updateHand s.players x.userId (fun _ => x.hand.eraseIdx i), topCard := some c, discardPile := c :: s.discardPile }).currentTurn = some y.userId := by
    rcases hps with h | h
    · refine advanceTurn_pair_fst _ x.userId y.userId ?_ hne hturn
      show (updateHand s.players x.userId (fun _ => x.hand.eraseIdx i)).map
        (fun p => p.userId) = [x.userId, y.userId]
      rw [updateHand_map_userId, h]
      rfl
    · refine advanceTurn_pair_snd _ y.userId x.userId ?_ (fun h2 => hne h2.symm) hturn
      show (updateHand s.players x.userId (fun _ => x.hand.eraseIdx i)).map
        (fun p => p.userId) = [y.userId, x.userId]
      rw [updateHand_map_userId, h]
      rfl
  have heff : applyCardEffects { s with players := updateHand s.players x.userId (fun _ => x.hand.eraseIdx i), topCard := some c, discardPile := c :: s.discardPile } c
      = forceDraw (some y.userId) 2 (advanceTurn { s with players := updateHand s.players x.userId (fun _ => x.hand.eraseIdx i), topCard := some c, discardPile := c :: s.discardPile }) := by
    unfold applyCardEffects
    simp only [htype, hadv1]
  have hfindy1 : (advanceTurn { s with players := updateHand s.players x.userId (fun _ => x.hand.eraseIdx i), topCard := some c, discardPile := c :: s.discardPile }).players.find?
      (fun p => p.userId = y.userId) = some y := by
    show (updateHand s.players x.userId (fun _ => x.hand.eraseIdx i)).find?
      (fun p => p.userId = y.userId) = some y
    rw [find?_updateHand_ne s.players x.userId y.userId _ hne]
    exact hfindy
  have hok := forceDraw_ok 2 (advanceTurn { s with players := updateHand s.players x.userId (fun _ => x.hand.eraseIdx i), topCard := some c, discardPile := c :: s.discardPile }) y.userId y hfindy1
  have hpair : forceDraw (some y.userId) 2 (advanceTurn { s with players := updateHand s.players x.userId (fun _ => x.hand.eraseIdx i), topCard := some c, discardPile := c :: s.discardPile })
      = ((forceDraw (some y.userId) 2 (advanceTurn { s with players := updateHand s.players x.userId (fun _ => x.hand.eraseIdx i), topCard := some c, discardPile := c :: s.discardPile })).1, none) := by
    rw [← hok]
  have h1 : (handlePlayCard s x.userId card).1 =
      advanceTurn (forceDraw (some y.userId) 2 (advanceTurn { s with players := updateHand s.players x.userId (fun _ => x.hand.eraseIdx i), topCard := some c, discardPile := c :: s.discardPile })).1 := by
    unfold handlePlayCard
    rw [if_neg (fun h => h hturn)]
    simp only [hfindx, hidx, hvalid, if_neg hwin']
    rw [heff, hpair]
    rcases hbb : broadcastGameState (advanceTurn (forceDraw (some y.userId) 2
        (advanceTurn { s with players := updateHand s.players x.userId (fun _ => x.hand.eraseIdx i), topCard := some c, discardPile := c :: s.discardPile })).1)
      with ⟨msgs, e3⟩
    rcases e3 with _ | e3 <;> simp [hbb]
  have hframe := forceDraw_frame (some y.userId) 2 (advanceTurn { s with players := updateHand s.players x.userId (fun _ => x.hand.eraseIdx i), topCard := some c, discardPile := c :: s.discardPile })
  have hids2 : (forceDraw (some y.userId) 2 (advanceTurn { s with players := updateHand s.players x.userId (fun _ => x.hand.eraseIdx i), topCard := some c, discardPile := c :: s.discardPile })).1.players.map
      (fun p => p.userId) = s.players.map (fun p => p.userId) := by
    rw [hframe.2.1]
    show (updateHand s.players x.userId (fun _ => x.hand.eraseIdx i)).map
      (fun p => p.userId) = s.players.map (fun p => p.userId)
    exact updateHand_map_userId s.players x.userId _
  have hcur2 : (forceDraw (some y.userId) 2 (advanceTurn { s with players := updateHand s.players x.userId (fun _ => x.hand.eraseIdx i), topCard := some c, discardPile := c :: s.discardPile })).1.currentTurn
      = some y.userId := by
    rw [hframe.1]
    exact hadv1
  constructor
  · rw [h1]
    rcases hps with h | h
    · refine advanceTurn_pair_snd _ x.userId y.userId ?_ hne hcur2
      rw [hids2, h]
      rfl
    · refine advanceTurn_pair_fst _ y.userId x.userId ?_ (fun h2 => hne h2.symm) hcur2
      rw [hids2, h]
      rfl
  · rw [h1, handLen_advanceTurn]
    rw [forceDraw_growth 2 _ y.userId y hfindy1]
    rfl

/-- C4 counterexample: in the two-player playing state `fullDrainedState`
(card-complete, deck empty), the current player legally plays a red draw-two
and does not win, yet the opponent's hand size stays 54 — it does NOT grow by
2, because the forced draws are skipped on the empty deck.  `currentTurn`
does return to the player. -/
theorem C4_counterexample :
    (fullDrainedState.gamePhase = "playing" ∧
      fullDrainedState.players.length = 2 ∧
      fullDrainedState.currentTurn = some "a" ∧
      cardsOf fullDrainedState = (↑createDeck : Multiset Card) ∧
      jsIsValidPlay (some redDrawTwo) fullDrainedState.topCard = .ok true ∧
      redDrawTwo.type = CType.draw_two) ∧
    handLen fullDrainedState "b" = 54 ∧
    (handlePlayCard fullDrainedState "a" redDrawTwo).2.2 = none ∧
    handLen (handlePlayCard fullDrainedState "a" redDrawTwo).1 "b" = 54 ∧
    (handlePlayCard fullDrainedState "a" redDrawTwo).1.currentTurn = some "a" := by
  refine ⟨⟨rfl, rfl, rfl, by decide, by decide, rfl⟩, by decide, ?_, ?_, ?_⟩
  · decide
  · decide
  · decide

/-- C4 witness: the amended statement applied to `drawTwoState`: Bob's hand
grows by `min 2 2 = 2` and the turn returns to Alice. -/
theorem C4_amended_witness :
    ((drawTwoState.players = [{ alice with hand := [some blueDrawTwo, some red5] },
        { bob with hand := [some green3] }] ∨
      drawTwoState.players = [{ bob with hand := [some green3] },
        { alice with hand := [some blueDrawTwo, some red5] }]) ∧
      ({ alice with hand := [some blueDrawTwo, some red5] } : Player).userId ≠
        ({ bob with hand := [some green3] } : Player).userId ∧
      drawTwoState.currentTurn =
        some ({ alice with hand := [some blueDrawTwo, some red5] } : Player).userId ∧
      jsFindCardIndex ({ alice with hand := [some blueDrawTwo, some red5] }
        : Player).hand blueDrawTwo = .ok (some (0, blueDrawTwo)) ∧
      blueDrawTwo.type = CType.draw_two ∧
      jsIsValidPlay (some blueDrawTwo) drawTwoState.topCard = .ok true ∧
      ({ alice with hand := [some blueDrawTwo, some red5] } : Player).hand.length ≠ 1) ∧
    (handlePlayCard drawTwoState "a" blueDrawTwo).1.currentTurn = some "a" ∧
    handLen (handlePlayCard drawTwoState "a" blueDrawTwo).1 "b" =
      ({ bob with hand := [some green3] } : Player).hand.length +
        min 2 drawTwoState.deck.length :=
  ⟨⟨Or.inl rfl, by decide, rfl, by decide, rfl, by decide, by decide⟩,
    C4_amended drawTwoState { alice with hand := [some blueDrawTwo, some red5] }
      { bob with hand := [some green3] } blueDrawTwo blueDrawTwo 0
      (Or.inl rfl) (by decide) rfl (by decide) rfl (by decide) (by decide)⟩

end Uno
